import Mathlib

/-!
Shallow embedding of the YSP-4000 serial-protocol core
(`ysp4000/commands.py` and `ysp4000/hfn.py` of pzbitskiy/yamaha-ysp-4000),
with theorems settling the frozen claims about its specification.

Modelling conventions:
* Python `bytes` values are `List Nat` of byte values (`Bytes`); Python `str`
  values that flow through the decoder are likewise lists of code points,
  `str` values of the volume converter are `List Char`.
* Python exceptions are the error side of `Except PyErr`; each exception type
  the code can raise is one `PyErr` constructor.
* Stateful objects (`YspResponseBase` subclasses, `ResponseParser`) become
  explicit state records threaded through the functions that mutate them.
* The state sink (`Ysp4000.update_state`) is modelled as the list of keyword
  argument sets emitted by `emit_changes`, appended in call order.
-/

/-- Byte strings (Python `bytes`): lists of byte values 0..255. -/
abbrev Bytes := List Nat

/-- Results of fallible code are compared propositionally; `Except` needs a
decidable equality for that. -/
instance instDecEqExcept {ε α : Type} [DecidableEq ε] [DecidableEq α] :
    DecidableEq (Except ε α) := fun a b => by
  cases a <;> cases b
  case error.error e e' => exact decidable_of_iff (e = e') (by simp)
  case error.ok e x => exact isFalse (by simp)
  case ok.error x e => exact isFalse (by simp)
  case ok.ok x y => exact decidable_of_iff (x = y) (by simp)

/-- Python exceptions that the embedded code can raise.
`runtimeDesync` is the `RuntimeError('incomplete handler ... has not consumed
all data')` raised by `ResponseParser.consume`; `fuelExhausted` is a modelling
artifact of the bounded scan loop and is unreachable for the fuel the model
supplies (see `scan_eq`). -/
inductive PyErr where
  | indexError
  | assertionError
  | valueError
  | unicodeDecodeError
  | keyError (fld : String)
  | runtimeDesync
  | fuelExhausted
deriving DecidableEq, Repr

/-! ### Shared helpers: hex parsing and formatting -/

/-- Value of an ASCII hex-digit byte (`0-9`, `a-f`, `A-F`), as accepted by
Python `int(_, 16)` for plain digit characters. -/
def hexValB (b : Nat) : Option Nat :=
  if 48 ≤ b ∧ b ≤ 57 then some (b - 48)
  else if 97 ≤ b ∧ b ≤ 102 then some (b - 87)
  else if 65 ≤ b ∧ b ≤ 70 then some (b - 55)
  else none

/-- Python `int(chunk, 16)` on a byte string, restricted to plain hex digits
(the device only ever sends those; Python's extra tolerance for sign,
whitespace and underscores is not exercised by any frame). Empty or non-hex
input raises `ValueError`. -/
def pyIntHex (bs : Bytes) : Except PyErr Nat :=
  match bs.foldl
      (fun acc b =>
        match acc, hexValB b with
        | some a, some d => some (a * 16 + d)
        | _, _ => none)
      (some 0) with
  | some n => if bs.isEmpty then Except.error PyErr.valueError else Except.ok n
  | none => Except.error PyErr.valueError

/-- Python `bytes.decode()` for the ASCII payloads the device sends.
Non-ASCII bytes are treated as a `UnicodeDecodeError` (Python would accept a
few multi-byte UTF-8 sequences, but no protocol payload contains them, and no
claim distinguishes the two behaviours: the decode runs on identical inputs
in every scenario compared). -/
def pyDecode (bs : Bytes) : Except PyErr Bytes :=
  if bs.all (· < 128) then Except.ok bs else Except.error PyErr.unicodeDecodeError

/-- Uppercase hex digit for a value < 16 (`'0'..'9'`, `'A'..'F'`). -/
def hexDigitU (n : Nat) : Char :=
  if n < 10 then Char.ofNat (48 + n) else Char.ofNat (55 + n)

/-- Fuel-bounded core of `hexUpper`; fuel `n + 1` always suffices since the
argument shrinks by a factor of 16 each step. Structural recursion keeps the
function kernel-reducible. -/
def hexUpperAux : Nat → Nat → List Char
  | 0, _ => []
  | fuel + 1, n =>
    if n < 16 then [hexDigitU n]
    else hexUpperAux fuel (n / 16) ++ [hexDigitU (n % 16)]

/-- Python `format(n, 'X')`: uppercase hex without leading zeros. -/
def hexUpper (n : Nat) : List Char := hexUpperAux (n + 1) n

/-- Python `str(n)` for a natural number. -/
def decStr (n : Nat) : List Char := Nat.toDigits 10 n

/-- `int(code, 16)` on a `str` (the volume converter parses `str` codes). -/
def pyIntHexChars (s : List Char) : Except PyErr Nat :=
  pyIntHex (s.map Char.toNat)

/-! ### `hfn.py`: `VolumeMap` — volume code conversions -/

namespace VolumeMap

/-- `VolumeMap.code_to_hfn`: convert a hex volume code to a 0-100 percent
value rendered as a decimal string. The Python body uses float division
truncated by `int(...)`; for the byte-sized arguments involved the `/2` and
`/4` divisions are exact in binary floating point and the correctly rounded
`/6` result never crosses an integer boundary, so truncating float division
coincides with natural-number division here. -/
def code_to_hfn (code : List Char) : Except PyErr (List Char) :=
  match pyIntHexChars code with
  | Except.error e => Except.error e
  | Except.ok num =>
    if 0xEE ≤ num then Except.ok (decStr 100)
    else if 0xB3 ≤ num ∧ num ≤ 0xEE then Except.ok (decStr (num - 0xB2 + 40))
    else if 0x8C ≤ num ∧ num ≤ 0xB2 then Except.ok (decStr ((num - 0x8A) / 2 + 20))
    else if 0x66 ≤ num ∧ num ≤ 0x8A then Except.ok (decStr ((num - 0x62) / 4 + 10))
    else if 0x2C ≤ num ∧ num ≤ 0x62 then Except.ok (decStr ((num - 0x2C) / 6 + 1))
    else Except.ok (decStr 0)

/-- `VolumeMap.convert_pct`: convert an integer percentage to the `00`-`EE`
hex string code. In each arithmetic branch the argument is positive, so the
`Int.toNat` coercions are exact. -/
def convert_pct (val : Int) : List Char :=
  if val ≤ 0 then ['0', '0']
  else if 1 ≤ val ∧ val ≤ 10 then hexUpper (0x2C + (val.toNat - 1) * 6)
  else if 10 < val ∧ val < 21 then hexUpper (0x62 + (val.toNat - 10) * 4)
  else if 20 < val ∧ val < 41 then hexUpper (0x8A + (val.toNat - 20) * 2)
  else if 40 < val ∧ val ≤ 100 then hexUpper (0xB2 + (val.toNat - 40) * 1)
  else ['E', 'E']

end VolumeMap

/-! ### `commands.py`: outgoing command encoders -/

/-- ASCII byte string literal helper. -/
def strB (s : String) : Bytes := s.toList.map Char.toNat

/-- `ControlCommandBase.control_cmd`: `STX + sw + data + ETX`. -/
def control_cmd (sw data : Bytes) : Bytes := [2] ++ sw ++ data ++ [3]

/-- Truthiness of an optional Python string/bytes value (`kwargs.get(...)`
in an `if`/`elif` condition): present and non-empty. -/
def truthyBytes : Option Bytes → Option Bytes
  | some (b :: bs) => some (b :: bs)
  | _ => none

/-- Truthiness of an optional Python int (`kwargs.get('volume')` used in an
`elif` condition): present and non-zero. -/
def truthyInt : Option Int → Option Int
  | some v => if v = 0 then none else some v
  | none => none

/-- Python `str.lower()` on an ASCII code-point list. -/
def pyLower (bs : Bytes) : Bytes :=
  bs.map fun b => if 65 ≤ b ∧ b ≤ 90 then b + 32 else b

/-- Keyword arguments accepted by `OperationCommand.cmd`. Callers pass string
codes for every intent except `volume`, which is a signed integer delta. -/
structure OpKwargs where
  input : Option Bytes := none
  volume : Option Int := none
  power : Option Bytes := none
  program : Option Bytes := none
  beam : Option Bytes := none
deriving DecidableEq, Repr

namespace OperationCommand

/-- `input_map` of `OperationCommand.cmd`. -/
def input_map (v : Bytes) : Option Bytes :=
  match v with
  | [48] => some (strB "DF")
  | [49] => some (strB "4A")
  | [50] => some (strB "49")
  | [51] => some (strB "DE")
  | [52] => some (strB "BC")
  | [54] => some (strB "B6")
  | [55] => some (strB "7D")
  | [56] => some (strB "4B")
  | _ => none

/-- `power_map` of `OperationCommand.cmd`. -/
def power_map (v : Bytes) : Option Bytes :=
  match v with
  | [48] => some (strB "7F")
  | [49] => some (strB "7E")
  | _ => none

/-- `program_map` of `OperationCommand.cmd`. -/
def program_map (v : Bytes) : Option Bytes :=
  match v with
  | [49] => some (strB "FA")
  | [50] => some (strB "F9")
  | [51] => some (strB "FB")
  | [52] => some (strB "F3")
  | [53] => some (strB "E1")
  | [54] => some (strB "EC")
  | [55] => some (strB "F8")
  | _ => none

/-- `beam_map` of `OperationCommand.cmd`; note there is no `'4'` key. -/
def beam_map (v : Bytes) : Option Bytes :=
  match v with
  | [48] => some (strB "C2")
  | [49] => some (strB "C3")
  | [50] => some (strB "C4")
  | [51] => some (strB "50")
  | [53] => some (strB "C5")
  | [54] => some (strB "C6")
  | _ => none

/-- The comparison `cmd == '4'` in the beam branch, where `cmd` is the result
of the failed `beam_map.get(beam)` lookup, hence `None` (every value stored in
the map is truthy and would have returned earlier). In Python 3 `None == '4'`
— and `bytes == str` generally — is always `False`. -/
def unmatchedLookupEqStr4 : Bool := false

/-- `OperationCommand.cmd`: one `if/elif` chain over the supplied intents;
a branch whose lookup fails falls through to the final `return None`. -/
def cmd (kw : OpKwargs) : Option Bytes :=
  match truthyBytes kw.input with
  | some input_val =>
    match input_map input_val with
    | some c => some (control_cmd (strB "0") (strB "78" ++ c))
    | none => none
  | none =>
  match truthyInt kw.volume with
  | some volume =>
    match (if 0 < volume then some (strB "1E")
           else if volume < 0 then some (strB "1F") else none : Option Bytes) with
    | some c => some (control_cmd (strB "0") (strB "78" ++ c))
    | none => none
  | none =>
  match truthyBytes kw.power with
  | some power =>
    match power_map (pyLower power) with
    | some c => some (control_cmd (strB "0") (strB "78" ++ c))
    | none => none
  | none =>
  match truthyBytes kw.program with
  | some program =>
    match program_map program with
    | some c => some (control_cmd (strB "0") (strB "7E" ++ c))
    | none =>
      if pyLower program = strB "0" ∨ pyLower program = strB "off" ∨
          pyLower program = strB "disable" then
        some (control_cmd (strB "0") (strB "789B"))
      else none
  | none =>
  match truthyBytes kw.beam with
  | some beam =>
    match beam_map beam with
    | some c => some (control_cmd (strB "0") (strB "78" ++ c))
    | none =>
      if unmatchedLookupEqStr4 then some (control_cmd (strB "0") (strB "7EFF"))
      else none
  | none => none

end OperationCommand

/-! ### `commands.py`: response parsing (`YspResponseBase` and subclasses) -/

/-- A byte completes a frame when it equals the handler's end byte or one of
the incomplete-response sentinels `NUL` (0x00) / `DLE` (0x10); this is the
pair of checks inside the scan loop of `YspResponseBase.consume`, shared by
every handler kind. -/
def stopB (endB v : Nat) : Bool := v == endB || v == 0 || v == 16

/-- Index of the first frame-terminating byte in a chunk: the `enumerate`
scan of `YspResponseBase.consume`. -/
def findStop (endB : Nat) : Bytes → Option Nat
  | [] => none
  | b :: bs => if stopB endB b then some 0 else (findStop endB bs).map (· + 1)

/-- Per-kind handler state shared by `YspResponseBase` subclasses: the
accumulation buffer, the parsed-field map, the completion flag, and the
subclass-specific decode state `σ`. -/
structure HB (σ : Type) where
  buf : Bytes
  fields : List (String × Bytes)
  completed : Bool
  sub : σ
deriving DecidableEq, Repr

/-- Python dict assignment `fields[key] = elem`: update in place or append. -/
def setField (fs : List (String × Bytes)) (k : String) (v : Bytes) :
    List (String × Bytes) :=
  match fs with
  | [] => [(k, v)]
  | (k', v') :: rest => if k' == k then (k, v) :: rest else (k', v') :: setField rest k v

/-- Python dict lookup `fields[key]`, as an option. -/
def lookupField (fs : List (String × Bytes)) (k : String) : Option Bytes :=
  (fs.find? (fun p => p.1 == k)).map (·.2)

/-- A command layout: ordered field descriptors `name ↦ (size, handler)`.
The size may read the subclass state (the configuration frame's `data` entry
is patched by `_parse_len`), and the optional handler is called with
`(self.buf, elem)` and may update the subclass state or raise. -/
abbrev Layout (σ : Type) :=
  List (String × (σ → Nat) × Option (Bytes → Bytes → σ → Except PyErr σ))

/-- The field-parsing loop of `YspResponseBase.consume`: walk the layout in
order, stop (without error) at the first field whose bytes are not all
present, record each complete field, and run its handler. -/
def runLayout (buf : Bytes) :
    Layout σ → Nat → List (String × Bytes) → σ →
    Except PyErr (List (String × Bytes) × σ)
  | [], _, fs, st => Except.ok (fs, st)
  | (nm, sizeF, hd) :: rest, pos, fs, st =>
    let size := sizeF st
    if buf.length < pos + size then Except.ok (fs, st)
    else
      let elem := (buf.drop pos).take size
      let fs' := setField fs nm elem
      match hd with
      | none => runLayout buf rest (pos + size) fs' st
      | some f =>
        match f buf elem st with
        | Except.error e => Except.error e
        | Except.ok st' => runLayout buf rest (pos + size) fs' st'

/-- `YspResponseBase.consume`: on an empty buffer, reset the field map and
completion flag and assert the chunk starts with the handler's start byte
(`data[0]` on an empty chunk is an `IndexError`). Then scan the chunk for the
first terminating byte; without one, the whole chunk is buffered and nothing
remains. With one, the buffer up to and including it is parsed against the
layout, the buffer is cleared, the handler is complete, and the bytes after
the terminator are returned. -/
def baseConsume (startB endB : Nat) (L : Layout σ) (h : HB σ) (data : Bytes) :
    Except PyErr (HB σ × Bytes) :=
  let start : Except PyErr (HB σ) :=
    if h.buf.isEmpty then
      match data with
      | [] => Except.error PyErr.indexError
      | d0 :: _ =>
        if d0 == startB then Except.ok { h with fields := [], completed := false }
        else Except.error PyErr.assertionError
    else Except.ok h
  match start with
  | Except.error e => Except.error e
  | Except.ok h =>
    match findStop endB data with
    | none => Except.ok ({ h with buf := h.buf ++ data }, [])
    | some i =>
      let buf := h.buf ++ data.take (i + 1)
      let rem := data.drop (i + 1)
      match runLayout buf L 0 h.fields h.sub with
      | Except.error e => Except.error e
      | Except.ok (fs, sub) =>
        Except.ok ({ buf := [], fields := fs, completed := true, sub := sub }, rem)

/-! #### `ConfigurationCommand` -/

/-- Decode state of `ConfigurationCommand`: the six attribute slots set by
`_parse_data`, plus the current size of the layout's `data` entry (patched in
place by `_parse_len`; initially 0). -/
structure CfgSub where
  status : Option Bytes := none
  power : Option Bytes := none
  input : Option Bytes := none
  volume : Option Bytes := none
  program : Option Bytes := none
  beam : Option Bytes := none
  dataLen : Nat := 0
deriving DecidableEq, Repr

/-- `ConfigurationCommand._parse_len`: decode the 2-hex-digit length field,
store it as the `data` entry's size, and if the resulting total layout size
(1+5+1+2+data+2+1, the sum of `cmd_layout` sizes) exceeds the observed buffer,
clamp the data size to the maximum documented 144 bytes (a fixup for a device
firmware quirk that over-reports the length). -/
def parseLen (buf chunk : Bytes) (st : CfgSub) : Except PyErr CfgSub :=
  match pyIntHex chunk with
  | Except.error e => Except.error e
  | Except.ok data_len =>
    let st := { st with dataLen := data_len }
    let total := 1 + 5 + 1 + 2 + st.dataLen + 2 + 1
    if total > buf.length then Except.ok { st with dataLen := 144 }
    else Except.ok st

/-- `ConfigurationCommand._parse_data`: pick the attribute codes out of the
data section at fixed offsets; an attribute beyond the end of the data is
left untouched. The two volume bytes `chunk[12:14]` go through `decode()`. -/
def parseData (chunk : Bytes) (st : CfgSub) : Except PyErr CfgSub :=
  let st := if 7 < chunk.length then { st with status := some [chunk.getD 7 0] } else st
  let st := if 8 < chunk.length then { st with power := some [chunk.getD 8 0] } else st
  let st := if 9 < chunk.length then { st with input := some [chunk.getD 9 0] } else st
  match (if 13 < chunk.length then
          (pyDecode ((chunk.drop 12).take 2)).map
            (fun v => { st with volume := some v })
        else Except.ok st : Except PyErr CfgSub) with
  | Except.error e => Except.error e
  | Except.ok st =>
    let st := if 14 < chunk.length then { st with program := some [chunk.getD 14 0] } else st
    let st := if 29 < chunk.length then { st with beam := some [chunk.getD 29 0] } else st
    Except.ok st

/-- `ConfigurationCommand.cmd_layout`. -/
def cfgLayout : Layout CfgSub :=
  [("start", fun _ => 1, none),
   ("type", fun _ => 5, none),
   ("ver", fun _ => 1, none),
   ("len", fun _ => 2, some parseLen),
   ("data", fun st => st.dataLen, some (fun _ elem st => parseData elem st)),
   ("sum", fun _ => 2, none),
   ("end", fun _ => 1, none)]

/-- `ConfigurationCommand.emit_changes`: push all six attribute slots
(present or `None`) to the state sink. -/
def cfgEmit (st : CfgSub) : List (String × Option Bytes) :=
  [("status", st.status), ("power", st.power), ("input", st.input),
   ("volume", st.volume), ("program", st.program), ("beam", st.beam)]

/-! #### `ReportCommand` -/

/-- `ReportCommand.cmd_layout`: all sizes fixed, no field handlers. -/
def rptLayout : Layout Unit :=
  [("start", fun _ => 1, none),
   ("type", fun _ => 1, none),
   ("guard", fun _ => 1, none),
   ("rcmd", fun _ => 2, none),
   ("rdata", fun _ => 2, none),
   ("end", fun _ => 1, none)]

/-- `ReportCommand.emit_changes`: read `rcmd`/`rdata` from the parsed fields
(a missing field is a `KeyError`) and map the command id to the single
attribute its response data encodes; an unknown id updates nothing. -/
def rptEmit (h : HB Unit) : Except PyErr (List (String × Option Bytes)) :=
  match lookupField h.fields "rcmd" with
  | none => Except.error (PyErr.keyError "rcmd")
  | some rcmd =>
    match lookupField h.fields "rdata" with
    | none => Except.error (PyErr.keyError "rdata")
    | some rdata =>
      if rcmd = strB "00" then Except.ok [("status", some [rdata.getD 1 0])]
      else if rcmd = strB "01" then Except.ok [("status", some (strB "warning"))]
      else if rcmd = strB "20" then
        -- `if rdata[1] >= ord('0')` — else force power off for the
        -- incomplete b'0\x10' / b'0\x00' replies
        (if 48 ≤ rdata.getD 1 0 then Except.ok [("power", some [rdata.getD 1 0])]
         else Except.ok [("power", some [48])])
      else if rcmd = strB "21" then Except.ok [("input", some [rdata.getD 1 0])]
      else if rcmd = strB "26" then
        (pyDecode rdata).map (fun v => [("volume", some v)])
      else if rcmd = strB "28" then Except.ok [("program", some [rdata.getD 0 0])]
      else if rcmd = strB "B0" then Except.ok [("beam", some [rdata.getD 1 0])]
      else Except.ok []

/-! #### `ResponseParser` (the dispatcher) -/

/-- The two handler kinds, in the order `make_response_parser` registers
them: `[ConfigurationCommand(), ReportCommand()]`. -/
inductive HKind where
  | cfg
  | rpt
deriving DecidableEq, Repr

/-- Start byte of each handler kind (`DC2` = 0x12, `STX` = 0x02). -/
def startOf : HKind → Nat
  | HKind.cfg => 18
  | HKind.rpt => 2

/-- One keyword-argument set passed to `update_state`. -/
abbrev Update := List (String × Option Bytes)

/-- Dispatcher state: the two (stateful, reused) handler instances, the
`current` in-progress handler slot, and the sink of emitted updates. -/
structure DState where
  cfg : HB CfgSub
  rpt : HB Unit
  current : Option HKind
  events : List Update
deriving DecidableEq, Repr

/-- A fresh `make_response_parser` dispatcher over fresh handlers. -/
def DState.init : DState :=
  { cfg := { buf := [], fields := [], completed := false, sub := {} },
    rpt := { buf := [], fields := [], completed := false, sub := () },
    current := none,
    events := [] }

/-- `handler.match(data)`: `data[0] == start_byte` (empty data is an
`IndexError`). -/
def hMatch (k : HKind) (data : Bytes) : Except PyErr Bool :=
  match data with
  | [] => Except.error PyErr.indexError
  | d0 :: _ => Except.ok (d0 == startOf k)

/-- The tail of the dispatcher's local `resume`, applied to the handler's
`consume` outcome: if the handler is done, emit its changes and clear
`current`; if it is not done yet left a nonempty remainder, raise
`RuntimeError` (fail loudly); otherwise keep waiting. -/
def resumeLogic (doneAfter : Bool) (rem : Bytes) (emit : Except PyErr Update)
    (s : DState) : Except PyErr (DState × Bytes) :=
  if doneAfter then
    match emit with
    | Except.error e => Except.error e
    | Except.ok u =>
      Except.ok ({ s with events := s.events ++ [u], current := none }, rem)
  else if !rem.isEmpty then Except.error PyErr.runtimeDesync
  else Except.ok (s, rem)

/-- The dispatcher's `resume(data)` closure for the given current handler:
run its `consume`, then apply `resumeLogic`. -/
def resume (k : HKind) (s : DState) (data : Bytes) :
    Except PyErr (DState × Bytes) :=
  match k with
  | HKind.cfg =>
    match baseConsume (startOf HKind.cfg) 3 cfgLayout s.cfg data with
    | Except.error e => Except.error e
    | Except.ok (h, rem) =>
      resumeLogic h.completed rem (Except.ok (cfgEmit h.sub)) { s with cfg := h }
  | HKind.rpt =>
    match baseConsume (startOf HKind.rpt) 3 rptLayout s.rpt data with
    | Except.error e => Except.error e
    | Except.ok (h, rem) =>
      resumeLogic h.completed rem (rptEmit h) { s with rpt := h }

/-- One pass over the handler list: find the first handler whose `match`
accepts the data, make it current and resume it. `ok none` means no handler
claimed the data (the dispatcher then drops it). -/
def tryHandlers : List HKind → DState → Bytes →
    Except PyErr (Option (DState × Bytes))
  | [], _, _ => Except.ok none
  | k :: ks, s, data =>
    match hMatch k data with
    | Except.error e => Except.error e
    | Except.ok false => tryHandlers ks s data
    | Except.ok true => (resume k { s with current := some k } data).map some

/-- The dispatcher's scan loop (`while i < len(self.handlers)` with the
`i = 0` restart after progress), bounded by fuel; `data.length + 1` fuel is
always enough because each matched handler consumes at least one byte. -/
def scanLoop : Nat → DState → Bytes → Except PyErr DState
  | 0, _, _ => Except.error PyErr.fuelExhausted
  | fuel + 1, s, data =>
    match tryHandlers [HKind.cfg, HKind.rpt] s data with
    | Except.error e => Except.error e
    | Except.ok none => Except.ok s
    | Except.ok (some (s', rem)) =>
      if rem.isEmpty then Except.ok s' else scanLoop fuel s' rem

/-- The scan loop with adequate fuel. -/
def scan (s : DState) (data : Bytes) : Except PyErr DState :=
  scanLoop (data.length + 1) s data

/-- `ResponseParser.consume`: resume the current handler first if there is
one, then scan for handlers over whatever remains. -/
def dispatchConsume (s : DState) (data : Bytes) : Except PyErr DState :=
  match s.current with
  | some k =>
    match resume k s data with
    | Except.error e => Except.error e
    | Except.ok (s', rem) =>
      if rem.isEmpty then Except.ok s' else scan s' rem
  | none => scan s data

/-- Feed a sequence of chunks to the dispatcher in order. -/
def runChunks (s : DState) : List Bytes → Except PyErr DState
  | [] => Except.ok s
  | c :: cs =>
    match dispatchConsume s c with
    | Except.error e => Except.error e
    | Except.ok s' => runChunks s' cs

/-- Reference byte-at-a-time run: feed every byte as its own chunk. -/
def byteRun (s : DState) : Bytes → Except PyErr DState
  | [] => Except.ok s
  | b :: bs =>
    match dispatchConsume s [b] with
    | Except.error e => Except.error e
    | Except.ok s' => byteRun s' bs

/-! ### Frame well-formedness and the byte-granularity view of the dispatcher

These definitions support reasoning about chunking: a well-formed frame, a
stream of well-formed frames, and the dispatcher states reachable while one
is being fed. -/

/-- The other handler kind. -/
def otherK : HKind → HKind
  | HKind.cfg => HKind.rpt
  | HKind.rpt => HKind.cfg

/-- Accumulation buffer of the handler of kind `k`. -/
def bufOf (k : HKind) (s : DState) : Bytes :=
  match k with
  | HKind.cfg => s.cfg.buf
  | HKind.rpt => s.rpt.buf

/-- Parsed-field map of the handler of kind `k`. -/
def fieldsOf (k : HKind) (s : DState) : List (String × Bytes) :=
  match k with
  | HKind.cfg => s.cfg.fields
  | HKind.rpt => s.rpt.fields

/-- Completion flag of the handler of kind `k`. -/
def completedOf (k : HKind) (s : DState) : Bool :=
  match k with
  | HKind.cfg => s.cfg.completed
  | HKind.rpt => s.rpt.completed

/-- The effect of one interior (non-terminating) byte on the dispatcher
state: extend the current handler's buffer, or, at a frame boundary, make the
handler matching the start byte current with that byte as its fresh buffer. -/
def pushByte (s : DState) (x : Nat) : DState :=
  match s.current with
  | some HKind.cfg => { s with cfg := { s.cfg with buf := s.cfg.buf ++ [x] } }
  | some HKind.rpt => { s with rpt := { s.rpt with buf := s.rpt.buf ++ [x] } }
  | none =>
    if x = 18 then
      { s with current := some HKind.cfg,
               cfg := { s.cfg with buf := [x], fields := [], completed := false } }
    else if x = 2 then
      { s with current := some HKind.rpt,
               rpt := { s.rpt with buf := [x], fields := [], completed := false } }
    else s

/-- A complete frame of kind `k`: at least two bytes, starting with the
kind's start byte, with no terminating byte anywhere before the last
position, and a terminating byte (`0x03`, or a sentinel `0x00`/`0x10`) last. -/
def Frame (k : HKind) (f : Bytes) : Prop :=
  2 ≤ f.length ∧ f.head? = some (startOf k) ∧
  (∀ i < f.length - 1, stopB 3 (f.getD i 0) = false) ∧
  stopB 3 (f.getD (f.length - 1) 0) = true

/-- A byte stream that is a concatenation of complete frames. -/
inductive Chain : Bytes → Prop
  | nil : Chain []
  | cons {k : HKind} {f rest : Bytes} : Frame k f → Chain rest → Chain (f ++ rest)

/-- Dispatcher state at a frame boundary: no handler in progress and both
accumulation buffers empty. -/
def Boundary (s : DState) : Prop :=
  s.current = none ∧ s.cfg.buf = [] ∧ s.rpt.buf = []

/-- Dispatcher state in the middle of a frame of kind `k`: that handler is
current with a nonempty buffer, freshly reset fields and completion flag, and
the other handler's buffer is empty. -/
def MidOn (s : DState) (k : HKind) : Prop :=
  s.current = some k ∧ bufOf k s ≠ [] ∧ fieldsOf k s = [] ∧
  completedOf k s = false ∧ bufOf (otherK k) s = []

/-- The pending input `v` is a valid continuation for the dispatcher state
`s`: either `s` is at a frame boundary and `v` is a concatenation of complete
frames, or `s` is mid-frame and `v` supplies the rest of that frame followed
by a concatenation of complete frames. -/
def Feeding (s : DState) (v : Bytes) : Prop :=
  (Boundary s ∧ Chain v) ∨
  (∃ k q rest, MidOn s k ∧ q ≠ [] ∧ Frame k (bufOf k s ++ q) ∧ Chain rest ∧
    v = q ++ rest)

/-! ## Claims -/

/-! ### C2 — volume code round trip -/

/-- **C2**: for every integer `p` in `[0,100]`, converting `p` to a volume
code with `VolumeMap.convert_pct` and converting that code back with
`VolumeMap.code_to_hfn` yields the decimal string representation of `p`. -/
theorem c2_volume_roundtrip (p : Nat) (hp : p ≤ 100) :
    VolumeMap.code_to_hfn (VolumeMap.convert_pct (p : Int)) =
      Except.ok (decStr p) := by
  have h : ∀ q : Fin 101,
      VolumeMap.code_to_hfn (VolumeMap.convert_pct ((q : Nat) : Int)) =
        Except.ok (decStr (q : Nat)) := by decide
  exact h ⟨p, by omega⟩

/-- Witness for `c2_volume_roundtrip` at `p = 57` (code `C3`). -/
theorem c2_volume_roundtrip_witness :
    VolumeMap.code_to_hfn (VolumeMap.convert_pct ((57 : Nat) : Int)) =
      Except.ok (decStr 57) :=
  c2_volume_roundtrip 57 (by decide)

/-! ### C5 — configuration length fixup -/

/-- **C5**: whenever the decoded 2-hex-digit length field would make the
declared total frame length (the sum `1+5+1+2+data+2+1` of the layout sizes)
exceed the bytes actually observed in the buffer, `_parse_len` clamps the
`data` field's length down to the maximum documented 144 bytes instead of the
device-reported length, and returns successfully rather than raising. -/
theorem c5_config_len_clamp (buf chunk : Bytes) (st : CfgSub) (n : Nat)
    (hn : pyIntHex chunk = Except.ok n)
    (hover : buf.length < 1 + 5 + 1 + 2 + n + 2 + 1) :
    parseLen buf chunk st = Except.ok { st with dataLen := 144 } := by
  unfold parseLen
  rw [hn]
  simp only []
  rw [if_pos (by omega)]

/-- Witness for `c5_config_len_clamp`: a 1-byte buffer with a device-reported
data length of `0x99` = 153 clamps to 144. -/
theorem c5_config_len_clamp_witness :
    parseLen [18] [57, 57] {} = Except.ok { dataLen := 144 } :=
  c5_config_len_clamp [18] [57, 57] {} 153 rfl (by decide)

/-! ### C6 — dispatcher fails loudly on a not-done handler with remainder -/

/-- **C6**: in the dispatcher's `resume` logic, if the current handler's
`consume` left a nonempty remainder while `done()` is false, the dispatcher
raises `RuntimeError` to the caller instead of silently dropping the bytes,
whatever handler outcome and dispatcher state are involved. -/
theorem c6_desync_raises (doneAfter : Bool) (rem : Bytes)
    (emit : Except PyErr Update) (s : DState)
    (hdone : doneAfter = false) (hrem : rem ≠ []) :
    resumeLogic doneAfter rem emit s = Except.error PyErr.runtimeDesync := by
  subst hdone
  unfold resumeLogic
  cases rem with
  | nil => exact absurd rfl hrem
  | cons b bs => rfl

/-- Witness for `c6_desync_raises`. -/
theorem c6_desync_raises_witness :
    resumeLogic false [1] (Except.ok []) DState.init =
      Except.error PyErr.runtimeDesync :=
  c6_desync_raises false [1] (Except.ok []) DState.init rfl (by decide)

/-! ### C7 — concrete configuration frame scenario -/

/-- **C7**: feeding the exact bytes `\x12G0079D09@E0190000A3\x03` to a fresh
dispatcher completes the configuration frame and emits exactly one update
with `status = "0"`, `power = "0"`, and `input`, `volume`, `program`, `beam`
unset (`None`); no handler remains in progress. -/
theorem c7_concrete_config_frame :
    (dispatchConsume DState.init
        [18, 71, 48, 48, 55, 57, 68, 48, 57, 64, 69, 48, 49, 57, 48, 48, 48,
         48, 65, 51, 3]).map (fun s => (s.events, s.current)) =
      Except.ok
        ([[("status", some [48]), ("power", some [48]), ("input", none),
           ("volume", none), ("program", none), ("beam", none)]], none) := rfl

/-! ### C8 — volume nudge sign -/

/-- **C8**: the volume-nudge intent of `OperationCommand.cmd` picks the
command strictly by the sign of the signed delta: positive deltas produce the
increase command (`78` + `1E`), negative deltas the decrease command
(`78` + `1F`), and a zero delta produces no command. -/
theorem c8_volume_nudge_sign (d : Int) :
    OperationCommand.cmd { volume := some d } =
      (if 0 < d then some (control_cmd (strB "0") (strB "78" ++ strB "1E"))
       else if d < 0 then some (control_cmd (strB "0") (strB "78" ++ strB "1F"))
       else none) := by
  by_cases h0 : d = 0
  · subst h0; decide
  · by_cases hp : 0 < d
    · simp [OperationCommand.cmd, truthyBytes, truthyInt, h0, hp]
    · have hn : d < 0 := by omega
      simp [OperationCommand.cmd, truthyBytes, truthyInt, h0, hp, hn]


/-! ### Branch lemmas for `baseConsume`

These describe the four outcomes of `YspResponseBase.consume`: empty-chunk /
wrong-start assertion failures on a fresh buffer, and the buffering vs
frame-completion branches after the start check. -/

/-- `consume(b'')` on a fresh handler: `data[0]` raises `IndexError`. -/
theorem baseConsume_nil_fresh {σ : Type} (sB eB : Nat) (L : Layout σ)
    (h : HB σ) (hbuf : h.buf = []) :
    baseConsume sB eB L h [] = Except.error PyErr.indexError := by
  unfold baseConsume
  rw [hbuf]
  rfl

/-- `consume` on a fresh handler with a chunk not starting with the start
byte: the assertion fails. -/
theorem baseConsume_badStart {σ : Type} (sB eB : Nat) (L : Layout σ)
    (h : HB σ) (d0 : Nat) (ds : Bytes) (hbuf : h.buf = [])
    (hd0 : (d0 == sB) = false) :
    baseConsume sB eB L h (d0 :: ds) = Except.error PyErr.assertionError := by
  unfold baseConsume
  rw [hbuf]
  simp [hd0]

/-- `consume` mid-frame (nonempty buffer): no reset, no assertion; the chunk
is scanned for a terminator and either buffered whole or parsed. -/
theorem baseConsume_eq_noReset {σ : Type} (sB eB : Nat) (L : Layout σ)
    (h : HB σ) (d : Bytes) (hbuf : h.buf ≠ []) :
    baseConsume sB eB L h d =
      (match findStop eB d with
       | none => Except.ok ({ h with buf := h.buf ++ d }, [])
       | some i =>
         match runLayout (h.buf ++ d.take (i + 1)) L 0 h.fields h.sub with
         | Except.error e => Except.error e
         | Except.ok (fs, sub) =>
           Except.ok ({ buf := [], fields := fs, completed := true, sub := sub },
             d.drop (i + 1))) := by
  unfold baseConsume
  have hb : h.buf.isEmpty = false := by
    cases hbb : h.buf
    · exact absurd hbb hbuf
    · rfl
  rw [hb]
  rfl

/-- `consume` on a fresh handler with a correctly started chunk: the fields
and completion flag are reset, then the chunk is scanned as usual. -/
theorem baseConsume_eq_reset {σ : Type} (sB eB : Nat) (L : Layout σ)
    (h : HB σ) (d0 : Nat) (ds : Bytes) (hbuf : h.buf = [])
    (hd0 : (d0 == sB) = true) :
    baseConsume sB eB L h (d0 :: ds) =
      (match findStop eB (d0 :: ds) with
       | none =>
         Except.ok ({ h with buf := d0 :: ds, fields := [], completed := false }, [])
       | some i =>
         match runLayout ((d0 :: ds).take (i + 1)) L 0 [] h.sub with
         | Except.error e => Except.error e
         | Except.ok (fs, sub) =>
           Except.ok ({ buf := [], fields := fs, completed := true, sub := sub },
             (d0 :: ds).drop (i + 1))) := by
  unfold baseConsume
  rw [hbuf]
  simp only [List.isEmpty_nil, if_true, hd0, List.nil_append]

/-- `findStop` on a chunk whose head is not a terminator. -/
theorem findStop_cons_false {eB x : Nat} (hx : stopB eB x = false) (w : Bytes) :
    findStop eB (x :: w) = (findStop eB w).map (· + 1) := by
  simp [findStop, hx]

/-- `findStop` on a chunk whose head is a terminator. -/
theorem findStop_cons_true {eB x : Nat} (hx : stopB eB x = true) (w : Bytes) :
    findStop eB (x :: w) = some 0 := by
  simp [findStop, hx]

/-- `findStop` finds nothing exactly when no byte of the chunk satisfies the
stop test. -/
theorem findStop_eq_none_iff (eB : Nat) :
    ∀ d : Bytes, findStop eB d = none ↔ d.any (stopB eB) = false := by
  intro d
  induction d with
  | nil => simp [findStop]
  | cons b bs ih =>
    cases hb : stopB eB b
    · rw [findStop_cons_false hb]
      simp only [List.any_cons, hb, Bool.false_or, Option.map_eq_none']
      exact ih
    · rw [findStop_cons_true hb]
      simp [hb]

/-- Consuming one interior byte mid-frame just extends the buffer: feeding
`x :: w` equals feeding `w` with `x` already buffered. -/
theorem baseConsume_cons_mid {σ : Type} (sB eB : Nat) (L : Layout σ)
    (h : HB σ) (x : Nat) (w : Bytes) (hbuf : h.buf ≠ [])
    (hx : stopB eB x = false) :
    baseConsume sB eB L h (x :: w) =
      baseConsume sB eB L { h with buf := h.buf ++ [x] } w := by
  rw [baseConsume_eq_noReset sB eB L h (x :: w) hbuf,
    baseConsume_eq_noReset sB eB L { h with buf := h.buf ++ [x] } w (by simp),
    findStop_cons_false hx]
  cases hfs : findStop eB w with
  | none =>
    simp only [Option.map_none']
    rw [List.append_cons]
  | some j =>
    simp only [Option.map_some']
    have ht : h.buf ++ (x :: w).take (j + 1 + 1) = (h.buf ++ [x]) ++ w.take (j + 1) := by
      rw [List.take_succ_cons, List.append_cons]
    have hd : (x :: w).drop (j + 1 + 1) = w.drop (j + 1) := rfl
    rw [ht, hd]

/-- Consuming one interior byte on a fresh handler resets the fields and
completion flag and starts the buffer: feeding `x :: w` equals feeding `w`
to the freshly started handler. -/
theorem baseConsume_cons_fresh {σ : Type} (sB eB : Nat) (L : Layout σ)
    (h : HB σ) (x : Nat) (w : Bytes) (hbuf : h.buf = [])
    (hx : stopB eB x = false) (hxs : (x == sB) = true) :
    baseConsume sB eB L h (x :: w) =
      baseConsume sB eB L { h with buf := [x], fields := [], completed := false } w := by
  rw [baseConsume_eq_reset sB eB L h x w hbuf hxs,
    baseConsume_eq_noReset sB eB L { h with buf := [x], fields := [], completed := false }
      w (by simp),
    findStop_cons_false hx]
  cases hfs : findStop eB w with
  | none => rfl
  | some j =>
    simp only [Option.map_some']
    have ht : (x :: w).take (j + 1 + 1) = [x] ++ w.take (j + 1) := by
      rw [List.take_succ_cons, List.singleton_append]
    have hd : (x :: w).drop (j + 1 + 1) = w.drop (j + 1) := rfl
    rw [ht, hd]

/-- Consuming a terminating byte mid-frame completes the frame: the buffer
plus the terminator is parsed against the layout and the rest of the chunk is
returned as remainder. -/
theorem baseConsume_stop_mid {σ : Type} (sB eB : Nat) (L : Layout σ)
    (h : HB σ) (t : Nat) (w : Bytes) (hbuf : h.buf ≠ [])
    (ht : stopB eB t = true) :
    baseConsume sB eB L h (t :: w) =
      (match runLayout (h.buf ++ [t]) L 0 h.fields h.sub with
       | Except.error e => Except.error e
       | Except.ok (fs, sub) =>
         Except.ok ({ buf := [], fields := fs, completed := true, sub := sub }, w)) := by
  rw [baseConsume_eq_noReset sB eB L h (t :: w) hbuf, findStop_cons_true ht]
  rfl

/-! ### C10 — beam "4" (5ch Stereo) dead branch -/

/-- **C10**: calling the operation command encoder with beam value `"4"`
yields the no-command sentinel, and — because the 5ch-stereo branch compares
the unmatched lookup result (`None`) rather than the beam argument against
`'4'` — no beam value whatsoever can produce the 5ch-stereo command bytes
`STX 0 7EFF ETX`. -/
theorem c10_beam4_no_command :
    OperationCommand.cmd { beam := some (strB "4") } = none ∧
    ∀ bv : Bytes, OperationCommand.cmd { beam := some bv } ≠
      some (control_cmd (strB "0") (strB "7EFF")) := by
  refine ⟨rfl, ?_⟩
  intro bv h
  have hcmd : OperationCommand.cmd { beam := some bv } =
      (match truthyBytes (some bv) with
       | some beam =>
         (match OperationCommand.beam_map beam with
          | some c => some (control_cmd (strB "0") (strB "78" ++ c))
          | none =>
            if OperationCommand.unmatchedLookupEqStr4 then
              some (control_cmd (strB "0") (strB "7EFF"))
            else none)
       | none => none) := rfl
  rw [hcmd] at h
  cases bv with
  | nil => simp [truthyBytes] at h
  | cons b bs =>
    simp only [truthyBytes] at h
    split at h
    · rename_i c heq
      simp only [Option.some.injEq] at h
      have h3 : (control_cmd (strB "0") (strB "78" ++ c)).getD 3 0 =
          (control_cmd (strB "0") (strB "7EFF")).getD 3 0 := by rw [h]
      have hL : (control_cmd (strB "0") (strB "78" ++ c)).getD 3 0 = 56 := rfl
      have hR : (control_cmd (strB "0") (strB "7EFF")).getD 3 0 = 69 := rfl
      rw [hL, hR] at h3
      exact absurd h3 (by decide)
    · simp [OperationCommand.unmatchedLookupEqStr4] at h

/-! ### C3 — the incomplete sentinels are not configuration-specific -/

/-- **C3 counterexample**: the sentinel byte `0x10` completes a *report*
frame too: feeding `b'\x0210200\x10'` to a fresh report handler leaves it
done with no remainder — the sentinel substitution lives in
`YspResponseBase.consume`, shared by both frame kinds, not only in the
configuration kind. -/
theorem c3_counterexample_sentinel_completes_report :
    (baseConsume (startOf HKind.rpt) 3 rptLayout
        { buf := [], fields := [], completed := false, sub := () }
        [2, 49, 48, 50, 48, 48, 16]).map (fun p => (p.1.completed, p.2)) =
      Except.ok (true, ([] : Bytes)) ∧ (16 : Nat) ≠ 3 :=
  ⟨rfl, by decide⟩

/-- **C3 (amended)**: the incomplete-sentinel bytes `0x00` and `0x10`
substitute for the `0x03` terminator in *every* frame kind, report frames
included: a `consume` call on a fresh report handler completes the frame
exactly when the chunk contains a byte satisfying the shared stop test
(`0x03`, `0x00`, or `0x10`). -/
theorem c3_amended_sentinels_complete_report_frames (h : HB Unit) (d : Bytes)
    (h' : HB Unit) (rem : Bytes) (hbuf : h.buf = [])
    (hok : baseConsume (startOf HKind.rpt) 3 rptLayout h d = Except.ok (h', rem)) :
    h'.completed = true ↔ d.any (stopB 3) = true := by
  cases d with
  | nil =>
    rw [baseConsume_nil_fresh _ _ _ _ hbuf] at hok
    exact absurd hok (by simp)
  | cons d0 ds =>
    cases hd0 : (d0 == startOf HKind.rpt) with
    | false =>
      rw [baseConsume_badStart _ _ _ _ d0 ds hbuf hd0] at hok
      exact absurd hok (by simp)
    | true =>
      rw [baseConsume_eq_reset _ _ _ _ d0 ds hbuf hd0] at hok
      split at hok
      · rename_i heq
        have hany := (findStop_eq_none_iff 3 (d0 :: ds)).mp heq
        simp only [Except.ok.injEq, Prod.mk.injEq] at hok
        obtain ⟨hh, -⟩ := hok
        rw [← hh]
        simp [hany]
      · rename_i i heq
        have hany : (d0 :: ds).any (stopB 3) = true := by
          cases hany : (d0 :: ds).any (stopB 3) with
          | true => rfl
          | false =>
            rw [(findStop_eq_none_iff 3 (d0 :: ds)).mpr hany] at heq
            exact absurd heq (by simp)
        split at hok
        · exact absurd hok (by simp)
        · simp only [Except.ok.injEq, Prod.mk.injEq] at hok
          obtain ⟨hh, -⟩ := hok
          rw [← hh]
          simp [hany]

/-- Witness for `c3_amended_sentinels_complete_report_frames` on the chunk
`[2, 16]`: a sentinel is present and the handler completes. -/
theorem c3_amended_witness :
    ({ buf := [], fields := [("start", [2]), ("type", [16])], completed := true,
        sub := () } : HB Unit).completed = true ↔
      ([2, 16] : Bytes).any (stopB 3) = true :=
  c3_amended_sentinels_complete_report_frames
    { buf := [], fields := [], completed := false, sub := () } [2, 16] _ _ rfl rfl

/-! ### C4 — power report with a non-digit second response byte -/

/-- **C4 counterexample**: the defensive power rule does not cover every
non-digit second response byte. The report frame `b'\x0210200A\x03'` has
command id `20` and response data `0A`; `'A'` (65) is not a numeric digit,
yet the dispatcher emits `power = 'A'`, not `power = '0'`, because the code
tests `rdata[1] >= ord('0')` rather than `rdata[1].isdigit()`. -/
theorem c4_counterexample_nondigit_power :
    (dispatchConsume DState.init [2, 49, 48, 50, 48, 48, 65, 3]).map
        (fun s => s.events) = Except.ok [[("power", some [65])]] ∧
    ¬ (48 ≤ 65 ∧ (65 : Nat) ≤ 57) ∧ ([65] : Bytes) ≠ [48] :=
  ⟨rfl, by decide, by decide⟩

/-- **C4 (amended)**: for a completed report frame with command id `20`, the
defensive rule fires exactly on second response-data bytes *below*
`ord('0')`: such frames emit power code `"0"`, and in particular the
truncated power-off frames `b'\x0210200\x10'` and `b'\x0210200\x00'` yield
`power == "0"` end to end, with no parse failure. -/
theorem c4_amended_power_below_ord0 (h : HB Unit) (b : Nat)
    (hrcmd : lookupField h.fields "rcmd" = some (strB "20"))
    (hrdata : lookupField h.fields "rdata" = some [48, b])
    (hb : b < 48) :
    rptEmit h = Except.ok [("power", some [48])] ∧
    (dispatchConsume DState.init [2, 49, 48, 50, 48, 48, 16]).map
      (fun s => s.events) = Except.ok [[("power", some [48])]] ∧
    (dispatchConsume DState.init [2, 49, 48, 50, 48, 48, 0]).map
      (fun s => s.events) = Except.ok [[("power", some [48])]] := by
  refine ⟨?_, rfl, rfl⟩
  unfold rptEmit
  rw [hrcmd, hrdata]
  have h20 : ¬ (strB "20" = strB "00") := by decide
  have h21 : ¬ (strB "20" = strB "01") := by decide
  have hgd : ([48, b].getD 1 0) = b := rfl
  simp only [h20, h21, if_false, if_true, hgd, if_pos rfl]
  rw [if_neg (by omega)]

/-- Witness for `c4_amended_power_below_ord0` at the parsed truncated
power-off frame (`rdata = b'0\x10'`). -/
theorem c4_amended_witness :
    rptEmit { buf := [], fields := [("rcmd", strB "20"), ("rdata", [48, 16])],
              completed := true, sub := () } = Except.ok [("power", some [48])] ∧
    (dispatchConsume DState.init [2, 49, 48, 50, 48, 48, 16]).map
      (fun s => s.events) = Except.ok [[("power", some [48])]] ∧
    (dispatchConsume DState.init [2, 49, 48, 50, 48, 48, 0]).map
      (fun s => s.events) = Except.ok [[("power", some [48])]] :=
  c4_amended_power_below_ord0
    { buf := [], fields := [("rcmd", strB "20"), ("rdata", [48, 16])],
      completed := true, sub := () } 16 rfl rfl (by decide)

/-! ### C9 — a handler's nonempty remainder implies completion -/

/-- `int(_, 16)` only raises `ValueError`, never the dispatcher's
`RuntimeError`. -/
theorem pyIntHex_ne_desync (bs : Bytes) :
    pyIntHex bs ≠ Except.error PyErr.runtimeDesync := by
  unfold pyIntHex
  split
  · split <;> simp
  · simp

/-- `bytes.decode()` only raises `UnicodeDecodeError`. -/
theorem pyDecode_ne_desync (bs : Bytes) :
    pyDecode bs ≠ Except.error PyErr.runtimeDesync := by
  unfold pyDecode
  split <;> simp

/-- `bytes.decode()` either succeeds on its input or raises the decode
error. -/
theorem pyDecode_cases (bs : Bytes) :
    pyDecode bs = Except.ok bs ∨
      pyDecode bs = Except.error PyErr.unicodeDecodeError := by
  unfold pyDecode
  split
  · exact Or.inl rfl
  · exact Or.inr rfl

/-- `_parse_len` never raises the dispatcher's `RuntimeError`. -/
theorem parseLen_ne_desync (buf chunk : Bytes) (st : CfgSub) :
    parseLen buf chunk st ≠ Except.error PyErr.runtimeDesync := by
  intro h
  unfold parseLen at h
  cases hp : pyIntHex chunk with
  | error e =>
    rw [hp] at h
    injection h with he
    rw [he] at hp
    exact pyIntHex_ne_desync chunk hp
  | ok num =>
    rw [hp] at h
    by_cases hc : 1 + 5 + 1 + 2 + num + 2 + 1 > buf.length <;> simp [hc] at h

/-- `_parse_data` never raises the dispatcher's `RuntimeError`. -/
theorem parseData_ne_desync (chunk : Bytes) (st : CfgSub) :
    parseData chunk st ≠ Except.error PyErr.runtimeDesync := by
  intro h
  unfold parseData at h
  rcases pyDecode_cases ((chunk.drop 12).take 2) with hpd | hpd <;>
    by_cases h13 : 13 < chunk.length <;>
    simp [h13, hpd, Except.map] at h

/-- The field-parsing loop only raises what its field handlers raise. -/
theorem runLayout_ne_desync {σ : Type} :
    ∀ L : Layout σ,
      (∀ nm sz f, (nm, sz, some f) ∈ L →
        ∀ b el st, f b el st ≠ Except.error PyErr.runtimeDesync) →
      ∀ (buf : Bytes) (pos : Nat) (fs : List (String × Bytes)) (st : σ),
        runLayout buf L pos fs st ≠ Except.error PyErr.runtimeDesync := by
  intro L
  induction L with
  | nil =>
    intro _ buf pos fs st h
    simp [runLayout] at h
  | cons entry rest ih =>
    intro hL buf pos fs st h
    obtain ⟨nm, sz, hd⟩ := entry
    have hrest : ∀ nm sz f, (nm, sz, some f) ∈ rest →
        ∀ b el st, f b el st ≠ Except.error PyErr.runtimeDesync :=
      fun nm sz f hm => hL nm sz f (List.mem_cons_of_mem _ hm)
    cases hd with
    | none =>
      simp only [runLayout] at h
      split at h
      · exact absurd h (by simp)
      · exact ih hrest buf _ _ st h
    | some f =>
      simp only [runLayout] at h
      split at h
      · exact absurd h (by simp)
      · split at h
        · rename_i e heq
          injection h with he
          rw [he] at heq
          exact hL nm sz f (List.mem_cons_self _ _) buf _ st heq
        · exact ih hrest buf _ _ _ h

/-- Both handlers of the configuration layout only raise value/decode
errors. -/
theorem cfgLayout_handlers_ne_desync :
    ∀ nm sz f, (nm, sz, some f) ∈ cfgLayout →
      ∀ b el st, f b el st ≠ Except.error PyErr.runtimeDesync := by
  intro nm sz f hmem b el st
  simp only [cfgLayout, List.mem_cons, List.not_mem_nil, or_false,
    Prod.mk.injEq] at hmem
  rcases hmem with ⟨-, -, hf⟩ | ⟨-, -, hf⟩ | ⟨-, -, hf⟩ | ⟨-, -, hf⟩ |
      ⟨-, -, hf⟩ | ⟨-, -, hf⟩ | ⟨-, -, hf⟩
  · exact absurd hf (by simp)
  · exact absurd hf (by simp)
  · exact absurd hf (by simp)
  · injection hf with hf'
    rw [hf']
    exact parseLen_ne_desync b el st
  · injection hf with hf'
    rw [hf']
    exact parseData_ne_desync el st
  · exact absurd hf (by simp)
  · exact absurd hf (by simp)

/-- The report layout has no field handlers at all. -/
theorem rptLayout_handlers_ne_desync :
    ∀ nm sz f, (nm, sz, some f) ∈ rptLayout →
      ∀ b el st, f b el st ≠ Except.error PyErr.runtimeDesync := by
  intro nm sz f hmem
  simp [rptLayout, Prod.mk.injEq] at hmem

/-- `YspResponseBase.consume` only raises assertion/index errors or what the
layout handlers raise — never the dispatcher's `RuntimeError`. -/
theorem baseConsume_ne_desync {σ : Type} (sB eB : Nat) (L : Layout σ)
    (hL : ∀ nm sz f, (nm, sz, some f) ∈ L →
      ∀ b el st, f b el st ≠ Except.error PyErr.runtimeDesync)
    (h : HB σ) (d : Bytes) :
    baseConsume sB eB L h d ≠ Except.error PyErr.runtimeDesync := by
  cases hb : h.buf with
  | nil =>
    cases d with
    | nil =>
      rw [baseConsume_nil_fresh _ _ _ _ hb]
      simp
    | cons d0 ds =>
      cases hd0 : d0 == sB with
      | false =>
        rw [baseConsume_badStart _ _ _ _ d0 ds hb hd0]
        simp
      | true =>
        rw [baseConsume_eq_reset _ _ _ _ d0 ds hb hd0]
        split
        · simp
        · split
          · rename_i e heq
            intro hx
            injection hx with he
            rw [he] at heq
            exact runLayout_ne_desync L hL _ _ _ _ heq
          · simp
  | cons b bs =>
    have hbuf : h.buf ≠ [] := by simp [hb]
    rw [baseConsume_eq_noReset _ _ _ _ _ hbuf]
    split
    · simp
    · split
      · rename_i e heq
        intro hx
        injection hx with he
        rw [he] at heq
        exact runLayout_ne_desync L hL _ _ _ _ heq
      · simp

/-- `ReportCommand.emit_changes` only raises `KeyError` or a decode error. -/
theorem rptEmit_ne_desync (h : HB Unit) :
    rptEmit h ≠ Except.error PyErr.runtimeDesync := by
  intro hh
  unfold rptEmit at hh
  cases hrc : lookupField h.fields "rcmd" with
  | none =>
    rw [hrc] at hh
    exact absurd hh (by simp)
  | some rcmd =>
    rw [hrc] at hh
    cases hrd : lookupField h.fields "rdata" with
    | none =>
      rw [hrd] at hh
      exact absurd hh (by simp)
    | some rdata =>
      rw [hrd] at hh
      dsimp only at hh
      split_ifs at hh
      rcases pyDecode_cases rdata with hpd | hpd <;>
        (rw [hpd] at hh; simp [Except.map] at hh)

/-- A handler's `consume` that returns a nonempty remainder always reports
completion: the remainder is only ever the bytes after a terminator. -/
theorem baseConsume_rem_completed {σ : Type} {sB eB : Nat} {L : Layout σ}
    {h : HB σ} {d : Bytes} {h' : HB σ} {rem : Bytes}
    (hok : baseConsume sB eB L h d = Except.ok (h', rem)) (hrem : rem ≠ []) :
    h'.completed = true := by
  cases hb : h.buf with
  | nil =>
    cases d with
    | nil =>
      rw [baseConsume_nil_fresh _ _ _ _ hb] at hok
      exact absurd hok (by simp)
    | cons d0 ds =>
      cases hd0 : d0 == sB with
      | false =>
        rw [baseConsume_badStart _ _ _ _ d0 ds hb hd0] at hok
        exact absurd hok (by simp)
      | true =>
        rw [baseConsume_eq_reset _ _ _ _ d0 ds hb hd0] at hok
        split at hok
        · simp only [Except.ok.injEq, Prod.mk.injEq] at hok
          exact absurd hok.2.symm hrem
        · split at hok
          · exact absurd hok (by simp)
          · simp only [Except.ok.injEq, Prod.mk.injEq] at hok
            rw [← hok.1]
  | cons b bs =>
    have hbuf : h.buf ≠ [] := by simp [hb]
    rw [baseConsume_eq_noReset _ _ _ _ _ hbuf] at hok
    split at hok
    · simp only [Except.ok.injEq, Prod.mk.injEq] at hok
      exact absurd hok.2.symm hrem
    · split at hok
      · exact absurd hok (by simp)
      · simp only [Except.ok.injEq, Prod.mk.injEq] at hok
        rw [← hok.1]

/-- `resume` for the current configuration handler, unfolded. -/
theorem resume_cfg (s : DState) (d : Bytes) :
    resume HKind.cfg s d =
      (match baseConsume (startOf HKind.cfg) 3 cfgLayout s.cfg d with
       | Except.error e => Except.error e
       | Except.ok (h, rem) =>
         resumeLogic h.completed rem (Except.ok (cfgEmit h.sub))
           { s with cfg := h }) := rfl

/-- `resume` for the current report handler, unfolded. -/
theorem resume_rpt (s : DState) (d : Bytes) :
    resume HKind.rpt s d =
      (match baseConsume (startOf HKind.rpt) 3 rptLayout s.rpt d with
       | Except.error e => Except.error e
       | Except.ok (h, rem) =>
         resumeLogic h.completed rem (rptEmit h) { s with rpt := h }) := rfl

/-- The dispatcher's `resume` never takes the protocol-desync branch: its
handlers satisfy C9's premise, so the fault condition cannot arise. -/
theorem resume_ne_desync (k : HKind) (s : DState) (d : Bytes) :
    resume k s d ≠ Except.error PyErr.runtimeDesync := by
  intro hh
  cases k with
  | cfg =>
    rw [resume_cfg] at hh
    split at hh
    · rename_i e heq
      injection hh with he
      rw [he] at heq
      exact baseConsume_ne_desync _ _ _ cfgLayout_handlers_ne_desync s.cfg d heq
    · rename_i hb rem heq
      unfold resumeLogic at hh
      split at hh
      · simp at hh
      · rename_i hdone
        split at hh
        · rename_i hne
          have hrem : rem ≠ [] := by
            intro hnil
            rw [hnil] at hne
            simp at hne
          exact hdone (baseConsume_rem_completed heq hrem)
        · simp at hh
  | rpt =>
    rw [resume_rpt] at hh
    split at hh
    · rename_i e heq
      injection hh with he
      rw [he] at heq
      exact baseConsume_ne_desync _ _ _ rptLayout_handlers_ne_desync s.rpt d heq
    · rename_i hb rem heq
      unfold resumeLogic at hh
      split at hh
      · split at hh
        · rename_i e2 heq2
          injection hh with he2
          rw [he2] at heq2
          exact rptEmit_ne_desync _ heq2
        · simp at hh
      · rename_i hdone
        split at hh
        · rename_i hne
          have hrem : rem ≠ [] := by
            intro hnil
            rw [hnil] at hne
            simp at hne
          exact hdone (baseConsume_rem_completed heq hrem)
        · simp at hh

/-- **C9**: for every frame handler and every `consume` call, a nonempty
returned remainder implies `done()` is true; consequently the dispatcher's
protocol-desync branch (raised when a not-done handler leaves a remainder)
is unreachable: `resume` never reports that fault. -/
theorem c9_nonempty_remainder_implies_done :
    (∀ (σ : Type) (sB eB : Nat) (L : Layout σ) (h : HB σ) (d : Bytes)
        (h' : HB σ) (rem : Bytes),
        baseConsume sB eB L h d = Except.ok (h', rem) → rem ≠ [] →
          h'.completed = true) ∧
    (∀ (k : HKind) (s : DState) (d : Bytes),
        resume k s d ≠ Except.error PyErr.runtimeDesync) :=
  ⟨fun _ _ _ _ _ _ _ _ hok hrem => baseConsume_rem_completed hok hrem,
   resume_ne_desync⟩

/-- Witness for `c9_nonempty_remainder_implies_done`: a report frame with
trailing bytes leaves remainder `[9]` and a completed handler, and a concrete
`resume` call is not the desync error. -/
theorem c9_witness :
    ({ buf := [], fields := [("start", [2]), ("type", [16])],
        completed := true, sub := () } : HB Unit).completed = true ∧
    resume HKind.rpt DState.init [2, 3] ≠ Except.error PyErr.runtimeDesync :=
  ⟨c9_nonempty_remainder_implies_done.1 Unit 2 3 rptLayout
      { buf := [], fields := [], completed := false, sub := () } [2, 16, 9]
      _ [9] rfl (by decide),
   c9_nonempty_remainder_implies_done.2 HKind.rpt DState.init [2, 3]⟩

/-! ### C1 — fragmentation invariance

The plan: every dispatcher step is shown equal to a byte-at-a-time reference
run (`byteRun`) whenever the pending input is a valid continuation
(`Feeding`); any two chunkings of the same well-formed stream then both equal
the byte-at-a-time run, hence each other. -/

/-- A found stop index lies inside the chunk. -/
theorem findStop_lt_length (eB : Nat) :
    ∀ (d : Bytes) (i : Nat), findStop eB d = some i → i < d.length := by
  intro d
  induction d with
  | nil =>
    intro i h
    simp [findStop] at h
  | cons b bs ih =>
    intro i h
    cases hb : stopB eB b
    · rw [findStop_cons_false hb] at h
      cases hf : findStop eB bs with
      | none =>
        rw [hf] at h
        simp at h
      | some j =>
        rw [hf] at h
        simp only [Option.map_some', Option.some.injEq] at h
        have := ih j hf
        simp only [List.length_cons]
        omega
    · rw [findStop_cons_true hb] at h
      injection h with h0
      simp only [List.length_cons]
      omega

/-- The remainder `consume` returns is strictly shorter than the chunk
whenever it is nonempty. -/
theorem baseConsume_rem_length {σ : Type} {sB eB : Nat} {L : Layout σ}
    {h : HB σ} {d : Bytes} {h' : HB σ} {rem : Bytes}
    (hok : baseConsume sB eB L h d = Except.ok (h', rem)) (hrem : rem ≠ []) :
    rem.length < d.length := by
  cases hb : h.buf with
  | nil =>
    cases d with
    | nil =>
      rw [baseConsume_nil_fresh _ _ _ _ hb] at hok
      exact absurd hok (by simp)
    | cons d0 ds =>
      cases hd0 : d0 == sB with
      | false =>
        rw [baseConsume_badStart _ _ _ _ d0 ds hb hd0] at hok
        exact absurd hok (by simp)
      | true =>
        rw [baseConsume_eq_reset _ _ _ _ d0 ds hb hd0] at hok
        split at hok
        · simp only [Except.ok.injEq, Prod.mk.injEq] at hok
          exact absurd hok.2.symm hrem
        · rename_i i heq
          split at hok
          · exact absurd hok (by simp)
          · simp only [Except.ok.injEq, Prod.mk.injEq] at hok
            rw [← hok.2]
            have := findStop_lt_length eB (d0 :: ds) i heq
            simp only [List.length_drop]
            omega
  | cons b bs =>
    have hbuf : h.buf ≠ [] := by simp [hb]
    rw [baseConsume_eq_noReset _ _ _ _ _ hbuf] at hok
    split at hok
    · simp only [Except.ok.injEq, Prod.mk.injEq] at hok
      exact absurd hok.2.symm hrem
    · rename_i i heq
      split at hok
      · exact absurd hok (by simp)
      · simp only [Except.ok.injEq, Prod.mk.injEq] at hok
        rw [← hok.2]
        have := findStop_lt_length eB d i heq
        simp only [List.length_drop]
        omega

/-- The remainder `resume` returns is the one its handler's `consume`
returned. -/
theorem resume_ok_rem_length (k : HKind) (s : DState) (d : Bytes)
    (s' : DState) (rem : Bytes)
    (hok : resume k s d = Except.ok (s', rem)) (hrem : rem ≠ []) :
    rem.length < d.length := by
  cases k with
  | cfg =>
    rw [resume_cfg] at hok
    split at hok
    · exact absurd hok (by simp)
    · rename_i hb rem0 heq
      unfold resumeLogic at hok
      split at hok
      · simp only [Except.ok.injEq, Prod.mk.injEq] at hok
        rw [← hok.2] at hrem ⊢
        exact baseConsume_rem_length heq hrem
      · split at hok
        · exact absurd hok (by simp)
        · simp only [Except.ok.injEq, Prod.mk.injEq] at hok
          rw [← hok.2] at hrem ⊢
          exact baseConsume_rem_length heq hrem
  | rpt =>
    rw [resume_rpt] at hok
    split at hok
    · exact absurd hok (by simp)
    · rename_i hb rem0 heq
      unfold resumeLogic at hok
      split at hok
      · split at hok
        · exact absurd hok (by simp)
        · simp only [Except.ok.injEq, Prod.mk.injEq] at hok
          rw [← hok.2] at hrem ⊢
          exact baseConsume_rem_length heq hrem
      · split at hok
        · exact absurd hok (by simp)
        · simp only [Except.ok.injEq, Prod.mk.injEq] at hok
          rw [← hok.2] at hrem ⊢
          exact baseConsume_rem_length heq hrem

/-- The remainder a matched handler leaves is strictly shorter than the
scanned data. -/
theorem tryHandlers_ok_rem_length :
    ∀ (ks : List HKind) (s : DState) (d : Bytes) (s' : DState) (rem : Bytes),
      tryHandlers ks s d = Except.ok (some (s', rem)) → rem ≠ [] →
        rem.length < d.length := by
  intro ks
  induction ks with
  | nil =>
    intro s d s' rem h hrem
    simp [tryHandlers] at h
  | cons k ks ih =>
    intro s d s' rem h hrem
    unfold tryHandlers at h
    split at h
    · exact absurd h (by simp)
    · exact ih s d s' rem h hrem
    · rename_i hm
      cases hr : resume k { s with current := some k } d with
      | error e =>
        rw [hr] at h
        exact absurd h (by simp [Except.map])
      | ok p =>
        rw [hr] at h
        simp only [Except.map, Except.ok.injEq, Option.some.injEq] at h
        rw [h] at hr
        exact resume_ok_rem_length k _ d s' rem hr hrem

/-- The scan loop is fuel-insensitive once the fuel exceeds the data
length. -/
theorem scanLoop_fuel_eq :
    ∀ (f1 f2 : Nat) (s : DState) (d : Bytes),
      d.length < f1 → d.length < f2 → scanLoop f1 s d = scanLoop f2 s d := by
  intro f1
  induction f1 with
  | zero =>
    intro f2 s d h1 h2
    exact absurd h1 (Nat.not_lt_zero _)
  | succ f1 ih =>
    intro f2 s d h1 h2
    cases f2 with
    | zero => exact absurd h2 (Nat.not_lt_zero _)
    | succ f2 =>
      show (match tryHandlers [HKind.cfg, HKind.rpt] s d with
        | Except.error e => Except.error e
        | Except.ok none => Except.ok s
        | Except.ok (some (s', rem)) =>
          if rem.isEmpty then Except.ok s' else scanLoop f1 s' rem) =
        (match tryHandlers [HKind.cfg, HKind.rpt] s d with
        | Except.error e => Except.error e
        | Except.ok none => Except.ok s
        | Except.ok (some (s', rem)) =>
          if rem.isEmpty then Except.ok s' else scanLoop f2 s' rem)
      cases hth : tryHandlers [HKind.cfg, HKind.rpt] s d with
      | error e => rfl
      | ok op =>
        cases op with
        | none => rfl
        | some p =>
          obtain ⟨s', rem⟩ := p
          cases hremb : rem.isEmpty with
          | true => simp [hremb]
          | false =>
            have hrem : rem ≠ [] := by
              cases rem
              · simp at hremb
              · simp
            have hlen := tryHandlers_ok_rem_length _ s d s' rem hth hrem
            simp only [hremb, Bool.false_eq_true, if_false]
            exact ih f2 s' rem (by omega) (by omega)

/-- One-step unfolding of `scan`: the fuelled loop with adequate fuel
satisfies the intended recursion. -/
theorem scan_eq (s : DState) (d : Bytes) :
    scan s d =
      (match tryHandlers [HKind.cfg, HKind.rpt] s d with
       | Except.error e => Except.error e
       | Except.ok none => Except.ok s
       | Except.ok (some (s', rem)) =>
         if rem.isEmpty then Except.ok s' else scan s' rem) := by
  show (match tryHandlers [HKind.cfg, HKind.rpt] s d with
    | Except.error e => Except.error e
    | Except.ok none => Except.ok s
    | Except.ok (some (s', rem)) =>
      if rem.isEmpty then Except.ok s' else scanLoop d.length s' rem) = _
  cases hth : tryHandlers [HKind.cfg, HKind.rpt] s d with
  | error e => rfl
  | ok op =>
    cases op with
    | none => rfl
    | some p =>
      obtain ⟨s', rem⟩ := p
      cases hremb : rem.isEmpty with
      | true => simp [hremb]
      | false =>
        have hrem : rem ≠ [] := by
          cases rem
          · simp at hremb
          · simp
        have hlen := tryHandlers_ok_rem_length _ s d s' rem hth hrem
        simp only [hremb, Bool.false_eq_true, if_false]
        exact scanLoop_fuel_eq d.length (rem.length + 1) s' rem (by omega) (by omega)

/-- `ResponseParser.consume` with no handler in progress just scans. -/
theorem dispatch_none (s : DState) (d : Bytes) (hs : s.current = none) :
    dispatchConsume s d = scan s d := by
  unfold dispatchConsume
  rw [hs]

/-- `ResponseParser.consume` with handler `k` in progress resumes it
first. -/
theorem dispatch_some (s : DState) (k : HKind) (d : Bytes)
    (hs : s.current = some k) :
    dispatchConsume s d =
      (match resume k s d with
       | Except.error e => Except.error e
       | Except.ok (s', rem) =>
         if rem.isEmpty then Except.ok s' else scan s' rem) := by
  unfold dispatchConsume
  rw [hs]

/-- An interior byte fed to an in-progress configuration handler only grows
its buffer. -/
theorem resume_cons_cfg_mid (s : DState) (x : Nat) (w : Bytes)
    (hbuf : s.cfg.buf ≠ []) (hx : stopB 3 x = false) :
    resume HKind.cfg s (x :: w) =
      resume HKind.cfg { s with cfg := { s.cfg with buf := s.cfg.buf ++ [x] } } w := by
  rw [resume_cfg, resume_cfg, baseConsume_cons_mid _ _ _ _ _ _ hbuf hx]

/-- An interior byte fed to an in-progress report handler only grows its
buffer. -/
theorem resume_cons_rpt_mid (s : DState) (x : Nat) (w : Bytes)
    (hbuf : s.rpt.buf ≠ []) (hx : stopB 3 x = false) :
    resume HKind.rpt s (x :: w) =
      resume HKind.rpt { s with rpt := { s.rpt with buf := s.rpt.buf ++ [x] } } w := by
  rw [resume_rpt, resume_rpt, baseConsume_cons_mid _ _ _ _ _ _ hbuf hx]

/-- The configuration start byte fed to a fresh configuration handler resets
it and starts the buffer. -/
theorem resume_cons_cfg_fresh (s : DState) (w : Bytes) (hbuf : s.cfg.buf = []) :
    resume HKind.cfg s (18 :: w) =
      resume HKind.cfg
        { s with cfg := { s.cfg with buf := [18], fields := [], completed := false } } w := by
  rw [resume_cfg, resume_cfg,
    baseConsume_cons_fresh _ _ _ _ _ _ hbuf (by decide) (by decide)]

/-- The report start byte fed to a fresh report handler resets it and starts
the buffer. -/
theorem resume_cons_rpt_fresh (s : DState) (w : Bytes) (hbuf : s.rpt.buf = []) :
    resume HKind.rpt s (2 :: w) =
      resume HKind.rpt
        { s with rpt := { s.rpt with buf := [2], fields := [], completed := false } } w := by
  rw [resume_rpt, resume_rpt,
    baseConsume_cons_fresh _ _ _ _ _ _ hbuf (by decide) (by decide)]

/-- A terminating byte fed to an in-progress configuration handler parses the
buffered frame, emits, and hands back the rest of the chunk. -/
theorem resume_stop_cfg (s : DState) (t : Nat) (w : Bytes)
    (hbuf : s.cfg.buf ≠ []) (ht : stopB 3 t = true) :
    resume HKind.cfg s (t :: w) =
      (match runLayout (s.cfg.buf ++ [t]) cfgLayout 0 s.cfg.fields s.cfg.sub with
       | Except.error e => Except.error e
       | Except.ok (fs, sub) =>
         resumeLogic true w (Except.ok (cfgEmit sub))
           { s with cfg := { buf := [], fields := fs, completed := true, sub := sub } }) := by
  rw [resume_cfg, baseConsume_stop_mid _ _ _ _ _ _ hbuf ht]
  cases hrl : runLayout (s.cfg.buf ++ [t]) cfgLayout 0 s.cfg.fields s.cfg.sub with
  | error e => rfl
  | ok p =>
    obtain ⟨fs, sub⟩ := p
    rfl

/-- A terminating byte fed to an in-progress report handler parses the
buffered frame, emits, and hands back the rest of the chunk. -/
theorem resume_stop_rpt (s : DState) (t : Nat) (w : Bytes)
    (hbuf : s.rpt.buf ≠ []) (ht : stopB 3 t = true) :
    resume HKind.rpt s (t :: w) =
      (match runLayout (s.rpt.buf ++ [t]) rptLayout 0 s.rpt.fields s.rpt.sub with
       | Except.error e => Except.error e
       | Except.ok (fs, sub) =>
         resumeLogic true w
           (rptEmit { buf := [], fields := fs, completed := true, sub := sub })
           { s with rpt := { buf := [], fields := fs, completed := true, sub := sub } }) := by
  rw [resume_rpt, baseConsume_stop_mid _ _ _ _ _ _ hbuf ht]
  cases hrl : runLayout (s.rpt.buf ++ [t]) rptLayout 0 s.rpt.fields s.rpt.sub with
  | error e => rfl
  | ok p =>
    obtain ⟨fs, sub⟩ := p
    rfl

/-- `pushByte` while the configuration handler is current. -/
theorem pushByte_cur_cfg (s : DState) (x : Nat) (h : s.current = some HKind.cfg) :
    pushByte s x = { s with cfg := { s.cfg with buf := s.cfg.buf ++ [x] } } := by
  unfold pushByte
  rw [h]

/-- `pushByte` while the report handler is current. -/
theorem pushByte_cur_rpt (s : DState) (x : Nat) (h : s.current = some HKind.rpt) :
    pushByte s x = { s with rpt := { s.rpt with buf := s.rpt.buf ++ [x] } } := by
  unfold pushByte
  rw [h]

/-- `pushByte` at a frame boundary on the configuration start byte. -/
theorem pushByte_none_cfg (s : DState) (h : s.current = none) :
    pushByte s 18 =
      { s with current := some HKind.cfg,
               cfg := { s.cfg with buf := [18], fields := [], completed := false } } := by
  unfold pushByte
  rw [h]
  rfl

/-- `pushByte` at a frame boundary on the report start byte. -/
theorem pushByte_none_rpt (s : DState) (h : s.current = none) :
    pushByte s 2 =
      { s with current := some HKind.rpt,
               rpt := { s.rpt with buf := [2], fields := [], completed := false } } := by
  unfold pushByte
  rw [h]
  rfl

/-- Glue: scanning after a successful handler match is the same as resuming
it directly. -/
theorem scanStep_map (s : DState) (R : Except PyErr (DState × Bytes)) :
    (match R.map some with
     | Except.error e => Except.error e
     | Except.ok none => Except.ok s
     | Except.ok (some (s', rem)) =>
       if rem.isEmpty then Except.ok s' else scan s' rem) =
      (match R with
       | Except.error e => Except.error e
       | Except.ok (s', rem) =>
         if rem.isEmpty then Except.ok s' else scan s' rem) := by
  cases R with
  | error e => rfl
  | ok p =>
    obtain ⟨s', rem⟩ := p
    rfl

/-- The handler scan on a chunk led by the configuration start byte selects
the configuration handler. -/
theorem tryHandlers_cfg (s : DState) (w : Bytes) :
    tryHandlers [HKind.cfg, HKind.rpt] s (18 :: w) =
      (resume HKind.cfg { s with current := some HKind.cfg } (18 :: w)).map some := rfl

/-- The handler scan on a chunk led by the report start byte selects the
report handler. -/
theorem tryHandlers_rpt (s : DState) (w : Bytes) :
    tryHandlers [HKind.cfg, HKind.rpt] s (2 :: w) =
      (resume HKind.rpt { s with current := some HKind.rpt } (2 :: w)).map some := rfl

/-- A `consume` call with an empty chunk while the configuration handler is
mid-frame changes nothing. -/
theorem dispatch_nil_cfg (s : DState) (hcur : s.current = some HKind.cfg)
    (hbuf : s.cfg.buf ≠ []) (hcomp : s.cfg.completed = false) :
    dispatchConsume s [] = Except.ok s := by
  obtain ⟨⟨bf, ff, cf, sf⟩, rpt, cur, ev⟩ := s
  change cur = some HKind.cfg at hcur
  change cf = false at hcomp
  change bf ≠ [] at hbuf
  subst hcur
  subst hcomp
  show (match resume HKind.cfg ⟨⟨bf, ff, false, sf⟩, rpt, some HKind.cfg, ev⟩ [] with
        | Except.error e => Except.error e
        | Except.ok (s', rem) =>
          if rem.isEmpty then Except.ok s' else scan s' rem) =
      Except.ok ⟨⟨bf, ff, false, sf⟩, rpt, some HKind.cfg, ev⟩
  rw [resume_cfg, baseConsume_eq_noReset _ _ _ _ _ hbuf]
  simp [findStop, resumeLogic]

/-- A `consume` call with an empty chunk while the report handler is
mid-frame changes nothing. -/
theorem dispatch_nil_rpt (s : DState) (hcur : s.current = some HKind.rpt)
    (hbuf : s.rpt.buf ≠ []) (hcomp : s.rpt.completed = false) :
    dispatchConsume s [] = Except.ok s := by
  obtain ⟨cfg, ⟨bf, ff, cf, sf⟩, cur, ev⟩ := s
  change cur = some HKind.rpt at hcur
  change cf = false at hcomp
  change bf ≠ [] at hbuf
  subst hcur
  subst hcomp
  show (match resume HKind.rpt ⟨cfg, ⟨bf, ff, false, sf⟩, some HKind.rpt, ev⟩ [] with
        | Except.error e => Except.error e
        | Except.ok (s', rem) =>
          if rem.isEmpty then Except.ok s' else scan s' rem) =
      Except.ok ⟨cfg, ⟨bf, ff, false, sf⟩, some HKind.rpt, ev⟩
  rw [resume_rpt, baseConsume_eq_noReset _ _ _ _ _ hbuf]
  simp [findStop, resumeLogic]

/-- An interior byte consumed while the configuration handler is mid-frame:
the dispatcher state advances by exactly `pushByte`. -/
theorem dispatch_cons_cfg_mid (s : DState) (x : Nat) (w : Bytes)
    (hcur : s.current = some HKind.cfg) (hbuf : s.cfg.buf ≠ [])
    (hx : stopB 3 x = false) :
    dispatchConsume s (x :: w) = dispatchConsume (pushByte s x) w := by
  obtain ⟨cfg, rpt, cur, ev⟩ := s
  change cur = some HKind.cfg at hcur
  subst hcur
  show (match resume HKind.cfg ⟨cfg, rpt, some HKind.cfg, ev⟩ (x :: w) with
        | Except.error e => Except.error e
        | Except.ok (s', rem) =>
          if rem.isEmpty then Except.ok s' else scan s' rem) = _
  rw [resume_cons_cfg_mid ⟨cfg, rpt, some HKind.cfg, ev⟩ x w hbuf hx]
  rfl

/-- An interior byte consumed while the report handler is mid-frame. -/
theorem dispatch_cons_rpt_mid (s : DState) (x : Nat) (w : Bytes)
    (hcur : s.current = some HKind.rpt) (hbuf : s.rpt.buf ≠ [])
    (hx : stopB 3 x = false) :
    dispatchConsume s (x :: w) = dispatchConsume (pushByte s x) w := by
  obtain ⟨cfg, rpt, cur, ev⟩ := s
  change cur = some HKind.rpt at hcur
  subst hcur
  show (match resume HKind.rpt ⟨cfg, rpt, some HKind.rpt, ev⟩ (x :: w) with
        | Except.error e => Except.error e
        | Except.ok (s', rem) =>
          if rem.isEmpty then Except.ok s' else scan s' rem) = _
  rw [resume_cons_rpt_mid ⟨cfg, rpt, some HKind.rpt, ev⟩ x w hbuf hx]
  rfl

/-- The configuration start byte consumed at a frame boundary: the
configuration handler becomes current with that byte buffered. -/
theorem dispatch_start_cfg (s : DState) (w : Bytes) (hcur : s.current = none)
    (hbuf : s.cfg.buf = []) :
    dispatchConsume s (18 :: w) = dispatchConsume (pushByte s 18) w := by
  obtain ⟨cfg, rpt, cur, ev⟩ := s
  change cur = none at hcur
  subst hcur
  show scan ⟨cfg, rpt, none, ev⟩ (18 :: w) = _
  rw [scan_eq]
  show (match (resume HKind.cfg ⟨cfg, rpt, some HKind.cfg, ev⟩ (18 :: w)).map some with
        | Except.error e => Except.error e
        | Except.ok none => Except.ok (DState.mk cfg rpt none ev)
        | Except.ok (some (s', rem)) =>
          if rem.isEmpty then Except.ok s' else scan s' rem) = _
  rw [resume_cons_cfg_fresh ⟨cfg, rpt, some HKind.cfg, ev⟩ w hbuf, scanStep_map]
  rfl

/-- The report start byte consumed at a frame boundary. -/
theorem dispatch_start_rpt (s : DState) (w : Bytes) (hcur : s.current = none)
    (hbuf : s.rpt.buf = []) :
    dispatchConsume s (2 :: w) = dispatchConsume (pushByte s 2) w := by
  obtain ⟨cfg, rpt, cur, ev⟩ := s
  change cur = none at hcur
  subst hcur
  show scan ⟨cfg, rpt, none, ev⟩ (2 :: w) = _
  rw [scan_eq]
  show (match (resume HKind.rpt ⟨cfg, rpt, some HKind.rpt, ev⟩ (2 :: w)).map some with
        | Except.error e => Except.error e
        | Except.ok none => Except.ok (DState.mk cfg rpt none ev)
        | Except.ok (some (s', rem)) =>
          if rem.isEmpty then Except.ok s' else scan s' rem) = _
  rw [resume_cons_rpt_fresh ⟨cfg, rpt, some HKind.rpt, ev⟩ w hbuf, scanStep_map]
  rfl

/-- A terminating byte consumed while the configuration handler is
mid-frame: the result is the single-byte finish followed (on success) by a
scan of the rest of the chunk. -/
theorem dispatch_stop_cfg (s : DState) (t : Nat) (w : Bytes)
    (hcur : s.current = some HKind.cfg) (hbuf : s.cfg.buf ≠ [])
    (ht : stopB 3 t = true) :
    dispatchConsume s (t :: w) =
      (match dispatchConsume s [t] with
       | Except.error e => Except.error e
       | Except.ok s₁ => if w.isEmpty then Except.ok s₁ else scan s₁ w) := by
  obtain ⟨cfg, rpt, cur, ev⟩ := s
  change cur = some HKind.cfg at hcur
  subst hcur
  rw [dispatch_some ⟨cfg, rpt, some HKind.cfg, ev⟩ HKind.cfg (t :: w) rfl,
    dispatch_some ⟨cfg, rpt, some HKind.cfg, ev⟩ HKind.cfg [t] rfl,
    resume_stop_cfg ⟨cfg, rpt, some HKind.cfg, ev⟩ t w hbuf ht,
    resume_stop_cfg ⟨cfg, rpt, some HKind.cfg, ev⟩ t [] hbuf ht]
  show (match (match runLayout (cfg.buf ++ [t]) cfgLayout 0 cfg.fields cfg.sub with
               | Except.error e => Except.error e
               | Except.ok (fs, sub) =>
                 resumeLogic true w (Except.ok (cfgEmit sub))
                   ⟨⟨[], fs, true, sub⟩, rpt, some HKind.cfg, ev⟩) with
        | Except.error e => Except.error e
        | Except.ok (s', rem) =>
          if rem.isEmpty then Except.ok s' else scan s' rem) =
      (match (match (match runLayout (cfg.buf ++ [t]) cfgLayout 0 cfg.fields cfg.sub with
                     | Except.error e => Except.error e
                     | Except.ok (fs, sub) =>
                       resumeLogic true [] (Except.ok (cfgEmit sub))
                         ⟨⟨[], fs, true, sub⟩, rpt, some HKind.cfg, ev⟩) with
              | Except.error e => Except.error e
              | Except.ok (s', rem) =>
                if rem.isEmpty then Except.ok s' else scan s' rem) with
       | Except.error e => Except.error e
       | Except.ok s₁ => if w.isEmpty then Except.ok s₁ else scan s₁ w)
  cases hrl : runLayout (cfg.buf ++ [t]) cfgLayout 0 cfg.fields cfg.sub with
  | error e => rfl
  | ok p =>
    obtain ⟨fs, sub⟩ := p
    rfl

/-- A terminating byte consumed while the report handler is mid-frame. -/
theorem dispatch_stop_rpt (s : DState) (t : Nat) (w : Bytes)
    (hcur : s.current = some HKind.rpt) (hbuf : s.rpt.buf ≠ [])
    (ht : stopB 3 t = true) :
    dispatchConsume s (t :: w) =
      (match dispatchConsume s [t] with
       | Except.error e => Except.error e
       | Except.ok s₁ => if w.isEmpty then Except.ok s₁ else scan s₁ w) := by
  obtain ⟨cfg, rpt, cur, ev⟩ := s
  change cur = some HKind.rpt at hcur
  subst hcur
  rw [dispatch_some ⟨cfg, rpt, some HKind.rpt, ev⟩ HKind.rpt (t :: w) rfl,
    dispatch_some ⟨cfg, rpt, some HKind.rpt, ev⟩ HKind.rpt [t] rfl,
    resume_stop_rpt ⟨cfg, rpt, some HKind.rpt, ev⟩ t w hbuf ht,
    resume_stop_rpt ⟨cfg, rpt, some HKind.rpt, ev⟩ t [] hbuf ht]
  show (match (match runLayout (rpt.buf ++ [t]) rptLayout 0 rpt.fields rpt.sub with
               | Except.error e => Except.error e
               | Except.ok (fs, sub) =>
                 resumeLogic true w (rptEmit ⟨[], fs, true, sub⟩)
                   ⟨cfg, ⟨[], fs, true, sub⟩, some HKind.rpt, ev⟩) with
        | Except.error e => Except.error e
        | Except.ok (s', rem) =>
          if rem.isEmpty then Except.ok s' else scan s' rem) =
      (match (match (match runLayout (rpt.buf ++ [t]) rptLayout 0 rpt.fields rpt.sub with
                     | Except.error e => Except.error e
                     | Except.ok (fs, sub) =>
                       resumeLogic true [] (rptEmit ⟨[], fs, true, sub⟩)
                         ⟨cfg, ⟨[], fs, true, sub⟩, some HKind.rpt, ev⟩) with
              | Except.error e => Except.error e
              | Except.ok (s', rem) =>
                if rem.isEmpty then Except.ok s' else scan s' rem) with
       | Except.error e => Except.error e
       | Except.ok s₁ => if w.isEmpty then Except.ok s₁ else scan s₁ w)
  cases hrl : runLayout (rpt.buf ++ [t]) rptLayout 0 rpt.fields rpt.sub with
  | error e => rfl
  | ok p =>
    obtain ⟨fs, sub⟩ := p
    show (match resumeLogic true w (rptEmit (⟨[], fs, true, sub⟩ : HB Unit))
              ⟨cfg, ⟨[], fs, true, sub⟩, some HKind.rpt, ev⟩ with
          | Except.error e => Except.error e
          | Except.ok (s', rem) =>
            if rem.isEmpty then Except.ok s' else scan s' rem) =
        (match (match resumeLogic true [] (rptEmit (⟨[], fs, true, sub⟩ : HB Unit))
                    ⟨cfg, ⟨[], fs, true, sub⟩, some HKind.rpt, ev⟩ with
                | Except.error e => Except.error e
                | Except.ok (s', rem) =>
                  if rem.isEmpty then Except.ok s' else scan s' rem) with
         | Except.error e => Except.error e
         | Except.ok s₁ => if w.isEmpty then Except.ok s₁ else scan s₁ w)
    cases hre : rptEmit (⟨[], fs, true, sub⟩ : HB Unit) with
    | error e => rfl
    | ok u => rfl

/-- Finishing a configuration frame on success leaves the dispatcher at a
frame boundary. -/
theorem dispatch_stop_cfg_boundary (s : DState) (t : Nat)
    (hcur : s.current = some HKind.cfg) (hbuf : s.cfg.buf ≠ [])
    (ht : stopB 3 t = true) (hob : s.rpt.buf = []) (s₁ : DState)
    (hok : dispatchConsume s [t] = Except.ok s₁) :
    s₁.current = none ∧ s₁.cfg.buf = [] ∧ s₁.rpt.buf = [] := by
  obtain ⟨cfg, rpt, cur, ev⟩ := s
  change cur = some HKind.cfg at hcur
  change rpt.buf = [] at hob
  subst hcur
  rw [dispatch_some ⟨cfg, rpt, some HKind.cfg, ev⟩ HKind.cfg [t] rfl,
    resume_stop_cfg ⟨cfg, rpt, some HKind.cfg, ev⟩ t [] hbuf ht] at hok
  have hok2 : (match (match runLayout (cfg.buf ++ [t]) cfgLayout 0 cfg.fields cfg.sub with
               | Except.error e => Except.error e
               | Except.ok (fs, sub) =>
                 resumeLogic true [] (Except.ok (cfgEmit sub))
                   ⟨⟨[], fs, true, sub⟩, rpt, some HKind.cfg, ev⟩) with
        | Except.error e => Except.error e
        | Except.ok (s', rem) =>
          if rem.isEmpty then Except.ok s' else scan s' rem) = Except.ok s₁ := hok
  cases hrl : runLayout (cfg.buf ++ [t]) cfgLayout 0 cfg.fields cfg.sub with
  | error e =>
    rw [hrl] at hok2
    exact absurd hok2 (by simp)
  | ok p =>
    obtain ⟨fs, sub⟩ := p
    rw [hrl] at hok2
    have hs : Except.ok (DState.mk ⟨[], fs, true, sub⟩ rpt none (ev ++ [cfgEmit sub])) =
        Except.ok s₁ := hok2
    injection hs with hs
    rw [← hs]
    exact ⟨rfl, rfl, hob⟩

/-- Finishing a report frame on success leaves the dispatcher at a frame
boundary. -/
theorem dispatch_stop_rpt_boundary (s : DState) (t : Nat)
    (hcur : s.current = some HKind.rpt) (hbuf : s.rpt.buf ≠ [])
    (ht : stopB 3 t = true) (hob : s.cfg.buf = []) (s₁ : DState)
    (hok : dispatchConsume s [t] = Except.ok s₁) :
    s₁.current = none ∧ s₁.cfg.buf = [] ∧ s₁.rpt.buf = [] := by
  obtain ⟨cfg, rpt, cur, ev⟩ := s
  change cur = some HKind.rpt at hcur
  change cfg.buf = [] at hob
  subst hcur
  rw [dispatch_some ⟨cfg, rpt, some HKind.rpt, ev⟩ HKind.rpt [t] rfl,
    resume_stop_rpt ⟨cfg, rpt, some HKind.rpt, ev⟩ t [] hbuf ht] at hok
  have hok2 : (match (match runLayout (rpt.buf ++ [t]) rptLayout 0 rpt.fields rpt.sub with
               | Except.error e => Except.error e
               | Except.ok (fs, sub) =>
                 resumeLogic true [] (rptEmit ⟨[], fs, true, sub⟩)
                   ⟨cfg, ⟨[], fs, true, sub⟩, some HKind.rpt, ev⟩) with
        | Except.error e => Except.error e
        | Except.ok (s', rem) =>
          if rem.isEmpty then Except.ok s' else scan s' rem) = Except.ok s₁ := hok
  cases hrl : runLayout (rpt.buf ++ [t]) rptLayout 0 rpt.fields rpt.sub with
  | error e =>
    rw [hrl] at hok2
    exact absurd hok2 (by simp)
  | ok p =>
    obtain ⟨fs, sub⟩ := p
    rw [hrl] at hok2
    have hok3 : (match resumeLogic true [] (rptEmit (⟨[], fs, true, sub⟩ : HB Unit))
            ⟨cfg, ⟨[], fs, true, sub⟩, some HKind.rpt, ev⟩ with
          | Except.error e => Except.error e
          | Except.ok (s', rem) =>
            if rem.isEmpty then Except.ok s' else scan s' rem) =
        Except.ok s₁ := hok2
    cases hre : rptEmit (⟨[], fs, true, sub⟩ : HB Unit) with
    | error e =>
      rw [hre] at hok3
      exact absurd hok3 (by simp [resumeLogic])
    | ok u =>
      rw [hre] at hok3
      have hs : Except.ok (DState.mk cfg ⟨[], fs, true, sub⟩ none (ev ++ [u])) =
          Except.ok s₁ := hok3
      injection hs with hs
      rw [← hs]
      exact ⟨rfl, hob, rfl⟩

/-- A single interior byte consumed while the configuration handler is
mid-frame: the dispatcher state advances by exactly `pushByte`. -/
theorem byteOk_cfg_mid (s : DState) (x : Nat) (hcur : s.current = some HKind.cfg)
    (hbuf : s.cfg.buf ≠ []) (hcomp : s.cfg.completed = false)
    (hx : stopB 3 x = false) :
    dispatchConsume s [x] = Except.ok (pushByte s x) := by
  rw [dispatch_cons_cfg_mid s x [] hcur hbuf hx, pushByte_cur_cfg s x hcur]
  exact dispatch_nil_cfg _ hcur (by simp) hcomp

/-- A single interior byte consumed while the report handler is mid-frame. -/
theorem byteOk_rpt_mid (s : DState) (x : Nat) (hcur : s.current = some HKind.rpt)
    (hbuf : s.rpt.buf ≠ []) (hcomp : s.rpt.completed = false)
    (hx : stopB 3 x = false) :
    dispatchConsume s [x] = Except.ok (pushByte s x) := by
  rw [dispatch_cons_rpt_mid s x [] hcur hbuf hx, pushByte_cur_rpt s x hcur]
  exact dispatch_nil_rpt _ hcur (by simp) hcomp

/-- A single configuration start byte consumed at a frame boundary. -/
theorem byteOk_start_cfg (s : DState) (hcur : s.current = none)
    (hbuf : s.cfg.buf = []) :
    dispatchConsume s [18] = Except.ok (pushByte s 18) := by
  rw [dispatch_start_cfg s [] hcur hbuf, pushByte_none_cfg s hcur]
  exact dispatch_nil_cfg _ rfl (by simp) rfl

/-- A single report start byte consumed at a frame boundary. -/
theorem byteOk_start_rpt (s : DState) (hcur : s.current = none)
    (hbuf : s.rpt.buf = []) :
    dispatchConsume s [2] = Except.ok (pushByte s 2) := by
  rw [dispatch_start_rpt s [] hcur hbuf, pushByte_none_rpt s hcur]
  exact dispatch_nil_rpt _ rfl (by simp) rfl

/-- `getD` at the length of the left part of an append reads the first byte
of the right part. -/
theorem getD_append_length (a : Bytes) (x : Nat) (b : Bytes) :
    (a ++ x :: b).getD a.length 0 = x := by
  induction a with
  | nil => rfl
  | cons y a ih => simpa using ih

/-- The first byte of a frame is its kind's start byte. -/
theorem frame_head {k : HKind} {x : Nat} {f : Bytes}
    (hf : Frame k (x :: f)) : x = startOf k := by
  obtain ⟨-, hh, -, -⟩ := hf
  simpa using hh

/-- A frame has at least one byte after its head. -/
theorem frame_tail_ne {k : HKind} {x : Nat} {f : Bytes}
    (hf : Frame k (x :: f)) : f ≠ [] := by
  obtain ⟨hlen, -, -, -⟩ := hf
  intro h
  subst h
  simp at hlen

/-- A byte strictly inside a frame is not a terminating byte. -/
theorem frame_mid_not_stop {k : HKind} {buf q' : Bytes} {x : Nat}
    (hf : Frame k (buf ++ x :: q')) (hq : q' ≠ []) : stopB 3 x = false := by
  obtain ⟨-, -, hmid, -⟩ := hf
  have hq' : 0 < q'.length := List.length_pos.mpr hq
  have hi : buf.length < (buf ++ x :: q').length - 1 := by
    simp only [List.length_append, List.length_cons]
    omega
  have := hmid buf.length hi
  rwa [getD_append_length] at this

/-- The last byte of a frame is a terminating byte. -/
theorem frame_last_stop {k : HKind} {buf : Bytes} {x : Nat}
    (hf : Frame k (buf ++ [x])) : stopB 3 x = true := by
  obtain ⟨-, -, -, hlast⟩ := hf
  have hlen : (buf ++ [x]).length - 1 = buf.length := by simp
  rw [hlen, getD_append_length] at hlast
  exact hlast

/-- Inversion for a nonempty chain: it starts with a complete frame. -/
theorem chain_cons_inv {y : Nat} {v : Bytes} (h : Chain (y :: v)) :
    ∃ k f rest, Frame k (y :: f) ∧ Chain rest ∧ v = f ++ rest := by
  generalize hw : y :: v = w at h
  cases h with
  | nil => exact absurd hw (by simp)
  | cons hf hc =>
    rename_i k f rest
    cases f with
    | nil =>
      obtain ⟨hlen, -, -, -⟩ := hf
      simp at hlen
    | cons z f' =>
      rw [List.cons_append] at hw
      injection hw with hz hv
      subst hz
      exact ⟨k, f', rest, hf, hc, hv⟩

/-- One byte of a valid stream: either the byte is an interior or start byte
and the dispatcher advances by exactly `pushByte` (the validity invariant is
preserved), or the byte terminates the current frame, after which any
successful dispatcher state is at a frame boundary and the rest of the
stream is again a chain of complete frames. -/
theorem feeding_step (s : DState) (x : Nat) (v : Bytes)
    (hf : Feeding s (x :: v)) :
    (dispatchConsume s [x] = Except.ok (pushByte s x) ∧
      Feeding (pushByte s x) v ∧
      ∀ w, dispatchConsume s (x :: w) = dispatchConsume (pushByte s x) w) ∨
    (Chain v ∧
      (∀ w, dispatchConsume s (x :: w) =
        (match dispatchConsume s [x] with
         | Except.error e => Except.error e
         | Except.ok s₁ => if w.isEmpty then Except.ok s₁ else scan s₁ w)) ∧
      (∀ s₁, dispatchConsume s [x] = Except.ok s₁ → Boundary s₁)) := by
  rcases hf with ⟨hb, hc⟩ | ⟨k, q, rest, hmid, hq, hfr, hch, hv⟩
  · obtain ⟨k, f, rest, hfr, hch, hv⟩ := chain_cons_inv hc
    have hx : x = startOf k := frame_head hfr
    have hfne : f ≠ [] := frame_tail_ne hfr
    obtain ⟨hcur, hbc, hbr⟩ := hb
    left
    cases k with
    | cfg =>
      have hx18 : x = 18 := hx
      subst hx18
      refine ⟨byteOk_start_cfg s hcur hbc, ?_,
        fun w => dispatch_start_cfg s w hcur hbc⟩
      rw [pushByte_none_cfg s hcur]
      right
      refine ⟨HKind.cfg, f, rest, ⟨rfl, by simp [bufOf], rfl, rfl, hbr⟩,
        hfne, ?_, hch, hv⟩
      simpa [bufOf] using hfr
    | rpt =>
      have hx2 : x = 2 := hx
      subst hx2
      refine ⟨byteOk_start_rpt s hcur hbr, ?_,
        fun w => dispatch_start_rpt s w hcur hbr⟩
      rw [pushByte_none_rpt s hcur]
      right
      refine ⟨HKind.rpt, f, rest, ⟨rfl, by simp [bufOf], rfl, rfl, hbc⟩,
        hfne, ?_, hch, hv⟩
      simpa [bufOf, otherK] using hfr
  · cases q with
    | nil => exact absurd rfl hq
    | cons y q' =>
      rw [List.cons_append] at hv
      injection hv with hy hv'
      subst hy
      obtain ⟨hcur, hbuf, hflds, hcomp, hob⟩ := hmid
      cases q' with
      | nil =>
        have ht : stopB 3 x = true := frame_last_stop hfr
        right
        have hvrest : v = rest := by simpa using hv'
        cases k with
        | cfg =>
          refine ⟨by rw [hvrest]; exact hch,
            fun w => dispatch_stop_cfg s x w hcur hbuf ht,
            fun s₁ h1 => dispatch_stop_cfg_boundary s x hcur hbuf ht hob s₁ h1⟩
        | rpt =>
          refine ⟨by rw [hvrest]; exact hch,
            fun w => dispatch_stop_rpt s x w hcur hbuf ht,
            fun s₁ h1 => dispatch_stop_rpt_boundary s x hcur hbuf ht hob s₁ h1⟩
      | cons z q'' =>
        have hx : stopB 3 x = false := frame_mid_not_stop hfr (by simp)
        left
        cases k with
        | cfg =>
          refine ⟨byteOk_cfg_mid s x hcur hbuf hcomp hx, ?_,
            fun w => dispatch_cons_cfg_mid s x w hcur hbuf hx⟩
          rw [pushByte_cur_cfg s x hcur]
          right
          refine ⟨HKind.cfg, z :: q'', rest,
            ⟨hcur, by simp [bufOf], hflds, hcomp, hob⟩, by simp, ?_, hch, hv'⟩
          simpa [bufOf, List.append_assoc] using hfr
        | rpt =>
          refine ⟨byteOk_rpt_mid s x hcur hbuf hcomp hx, ?_,
            fun w => dispatch_cons_rpt_mid s x w hcur hbuf hx⟩
          rw [pushByte_cur_rpt s x hcur]
          right
          refine ⟨HKind.rpt, z :: q'', rest,
            ⟨hcur, by simp [bufOf], hflds, hcomp, hob⟩, by simp, ?_, hch, hv'⟩
          simpa [bufOf, List.append_assoc] using hfr

/-- `byteRun` on the empty stream. -/
theorem byteRun_nil (s : DState) : byteRun s [] = Except.ok s := rfl

/-- `byteRun` unfolded one byte. -/
theorem byteRun_cons (s : DState) (x : Nat) (w : Bytes) :
    byteRun s (x :: w) =
      (match dispatchConsume s [x] with
       | Except.error e => Except.error e
       | Except.ok s' => byteRun s' w) := rfl

/-- `runChunks` unfolded one chunk. -/
theorem runChunks_cons (s : DState) (c : Bytes) (cs : List Bytes) :
    runChunks s (c :: cs) =
      (match dispatchConsume s c with
       | Except.error e => Except.error e
       | Except.ok s' => runChunks s' cs) := rfl

/-- A single nonempty chunk of a valid stream is consumed exactly as its
bytes would be consumed one at a time. -/
theorem run_eq : ∀ (c : Bytes) (s : DState) (u : Bytes), c ≠ [] →
    Feeding s (c ++ u) → dispatchConsume s c = byteRun s c := by
  intro c
  induction c with
  | nil => intro s u hc _; exact absurd rfl hc
  | cons x w ih =>
    intro s u _ hf
    rcases feeding_step s x (w ++ u) hf with ⟨hd, hfd, hall⟩ | ⟨hch, hall, hbd⟩
    · cases w with
      | nil =>
        rw [byteRun_cons, hd]
        rfl
      | cons y w' =>
        rw [hall (y :: w'), byteRun_cons, hd]
        show dispatchConsume (pushByte s x) (y :: w') =
          byteRun (pushByte s x) (y :: w')
        exact ih (pushByte s x) u (by simp) hfd
    · rw [hall w, byteRun_cons]
      cases hd : dispatchConsume s [x] with
      | error e => rfl
      | ok s₁ =>
        cases w with
        | nil => rfl
        | cons y w' =>
          have hb := hbd s₁ hd
          show scan s₁ (y :: w') = byteRun s₁ (y :: w')
          rw [← dispatch_none s₁ (y :: w') hb.1]
          exact ih s₁ u (by simp) (Or.inl ⟨hb, hch⟩)

/-- Consuming a valid stream byte-by-byte keeps the stream's remainder
valid. -/
theorem byteRun_feeds : ∀ (c : Bytes) (s : DState) (u : Bytes),
    Feeding s (c ++ u) → ∀ s', byteRun s c = Except.ok s' → Feeding s' u := by
  intro c
  induction c with
  | nil =>
    intro s u hf s' h
    rw [byteRun_nil] at h
    injection h with h
    rw [← h]
    simpa using hf
  | cons x w ih =>
    intro s u hf s' h
    rcases feeding_step s x (w ++ u) hf with ⟨hd, hfd, -⟩ | ⟨hch, -, hbd⟩
    · rw [byteRun_cons, hd] at h
      exact ih (pushByte s x) u hfd s' h
    · rw [byteRun_cons] at h
      cases hd : dispatchConsume s [x] with
      | error e =>
        rw [hd] at h
        have h2 : (Except.error e : Except PyErr DState) = Except.ok s' := h
        exact Except.noConfusion h2
      | ok s₁ =>
        rw [hd] at h
        have h2 : byteRun s₁ w = Except.ok s' := h
        exact ih s₁ u (Or.inl ⟨hbd s₁ hd, hch⟩) s' h2

/-- `byteRun` splits over appended streams. -/
theorem byteRun_append (a b : Bytes) (s : DState) :
    byteRun s (a ++ b) =
      (match byteRun s a with
       | Except.error e => Except.error e
       | Except.ok s' => byteRun s' b) := by
  induction a generalizing s with
  | nil => rfl
  | cons x a ih =>
    rw [List.cons_append, byteRun_cons, byteRun_cons]
    cases dispatchConsume s [x] with
    | error e => rfl
    | ok s' => exact ih s'

/-- Feeding a valid stream in any sequence of nonempty chunks equals feeding
it byte by byte. -/
theorem runChunks_eq_byteRun : ∀ (cs : List Bytes) (s : DState),
    (∀ c ∈ cs, c ≠ []) → Feeding s cs.flatten →
    runChunks s cs = byteRun s cs.flatten := by
  intro cs
  induction cs with
  | nil => intro s _ _; rfl
  | cons c cs ih =>
    intro s hne hf
    have hcne : c ≠ [] := hne c (by simp)
    have hf' : Feeding s (c ++ cs.flatten) := hf
    have hre := run_eq c s cs.flatten hcne hf'
    rw [runChunks_cons]
    show _ = byteRun s (c ++ cs.flatten)
    rw [byteRun_append, ← hre]
    cases hd : dispatchConsume s c with
    | error e => rfl
    | ok s' =>
      have hbr : byteRun s c = Except.ok s' := by rw [← hre]; exact hd
      have hfd : Feeding s' cs.flatten := byteRun_feeds c s cs.flatten hf' s' hbr
      exact ih s' (fun d hdm => hne d (List.mem_cons_of_mem c hdm)) hfd

/-! ### C1 — chunking invariance of the response dispatcher -/

/-- **C1**: for every byte sequence that is a concatenation of complete
frames, feeding it to a fresh dispatcher split into arbitrary nonempty
chunks in order — one whole chunk and 1-byte chunks included — produces the
same outcome, in particular the same sequence of emitted attribute updates
in the state sink. -/
theorem c1_chunking_invariance (v : Bytes) (hv : Chain v) (cs ds : List Bytes)
    (hcs : ∀ c ∈ cs, c ≠ []) (hds : ∀ d ∈ ds, d ≠ [])
    (hcv : cs.flatten = v) (hdv : ds.flatten = v) :
    runChunks DState.init cs = runChunks DState.init ds := by
  have hbi : Boundary DState.init := ⟨rfl, rfl, rfl⟩
  rw [runChunks_eq_byteRun cs DState.init hcs (by rw [hcv]; exact Or.inl ⟨hbi, hv⟩),
    runChunks_eq_byteRun ds DState.init hds (by rw [hdv]; exact Or.inl ⟨hbi, hv⟩),
    hcv, hdv]

/-- Witness for `c1_chunking_invariance`: the concrete volume report frame
`b'\x021026B2\x03'` fed whole and fed one byte at a time. -/
theorem c1_chunking_invariance_witness :
    Chain [2, 49, 48, 50, 54, 66, 50, 3] ∧
    runChunks DState.init [[2, 49, 48, 50, 54, 66, 50, 3]] =
      runChunks DState.init [[2], [49], [48], [50], [54], [66], [50], [3]] := by
  have hfr : Frame HKind.rpt [2, 49, 48, 50, 54, 66, 50, 3] := by
    refine ⟨by decide, by decide, by decide, by decide⟩
  have hv : Chain [2, 49, 48, 50, 54, 66, 50, 3] := by
    have h := Chain.cons hfr Chain.nil
    simpa using h
  exact ⟨hv, c1_chunking_invariance [2, 49, 48, 50, 54, 66, 50, 3] hv
    [[2, 49, 48, 50, 54, 66, 50, 3]] [[2], [49], [48], [50], [54], [66], [50], [3]]
    (by decide) (by decide) rfl rfl⟩
